import Mathlib

/-! # Form validation engine of `src/js/forms.js`

A shallow embedding of `FormValidator` (field rules, `validateField`,
`validateForm`, the submission lifecycle of `handleFormSubmit`, `registerForm`,
`debounce`) and of `FormUtils.formatPhoneNumber`, together with the properties
stated for them.  The navigation of the image gallery (`src/js/gallery.js`) and
the counter animation (`src/js/main.js`) follow in namespaces of their own.

Modelling conventions.

* A JavaScript string is a Lean `String`; its `length` is the number of UTF-16
  code units (`jsLength`), and `trim` strips the ECMAScript WhiteSpace and
  LineTerminator code points (`jsTrim`).  Strings holding unpaired surrogates
  are outside the model.
* A JavaScript number used as a length bound is an `Int` (an integer in the
  range where the number prints as plain decimal digits).
* The DOM is explicit state: every field carries its own class list and border
  colour, while the `.error-message` nodes live in a store indexed by `Nat`,
  because `input.parentElement.querySelector('.error-message')` may find the
  same node for two fields that share a parent.
* `String.prototype.toUpperCase` is a parameter (`upper`), the Unicode case
  tables not being part of the repository.
* Time is a natural number of milliseconds; a timer set by `setTimeout` fires
  exactly when it is due, and timers that are due fire before a later event
  is handled.
-/

namespace Forms

/-! ## Strings -/

/-- ECMAScript WhiteSpace or LineTerminator: the code points removed by
`String.prototype.trim` and matched by `\s`. -/
def isWhiteSpace (c : Char) : Bool :=
  let n := c.toNat
  n == 0x09 || n == 0x0A || n == 0x0B || n == 0x0C || n == 0x0D || n == 0x20 ||
  n == 0xA0 || n == 0x1680 || (0x2000 ≤ n && n ≤ 0x200A) || n == 0x2028 ||
  n == 0x2029 || n == 0x202F || n == 0x205F || n == 0x3000 || n == 0xFEFF

/-- The list form of `trim`: leading and trailing white space removed. -/
def trimChars (cs : List Char) : List Char :=
  ((cs.dropWhile isWhiteSpace).reverse.dropWhile isWhiteSpace).reverse

/-- `String.prototype.trim`. -/
def jsTrim (s : String) : String := ⟨trimChars s.data⟩

/-- Number of UTF-16 code units of one code point. -/
def utf16Units (c : Char) : Nat := if c.toNat < 0x10000 then 1 else 2

/-- The `length` property of a string: its number of UTF-16 code units. -/
def jsLength (s : String) : Nat := (s.data.map utf16Units).sum

/-- Truthiness of a string: only the empty string is falsy. -/
def truthy (s : String) : Bool := s != ""

/-- Number-to-string conversion inside a template literal. -/
def numberToString (n : Int) : String := toString n

/-! ## Field rules -/

/-- One entry of a rule object, e.g. `{ required: true, minLength: 2, pattern: /.../, message: '...' }`.
An absent property is `none`; `pattern` is the regular expression's `test`. -/
structure FieldRule where
  required : Bool
  pattern : Option (String → Bool)
  minLength : Option Int
  maxLength : Option Int
  message : Option String

/-- A rule object seen through the lookup `rules[fieldName]`: `none` when the lookup is
`undefined`. -/
abbrev Rules := String → Option FieldRule

/-- The property names every object literal inherits from `Object.prototype`. -/
def objectPrototypeNames : List String :=
  ["constructor", "__proto__", "hasOwnProperty", "isPrototypeOf", "propertyIsEnumerable",
   "toLocaleString", "toString", "valueOf", "__defineGetter__", "__defineSetter__",
   "__lookupGetter__", "__lookupSetter__"]

/-- What `validateField` reads in a value inherited from `Object.prototype` (a function, or
the prototype object itself): the value is truthy and has none of the properties
`required`, `pattern`, `minLength`, `maxLength`, `message`. -/
def inheritedRule : FieldRule :=
  { required := false, pattern := none, minLength := none, maxLength := none, message := none }

/-- The own entry of an object literal under `fieldName`; of several entries with one key
the last one counts. -/
def ownEntry (entries : List (String × FieldRule)) (fieldName : String) : Option FieldRule :=
  entries.foldl (fun found e => if e.1 = fieldName then some e.2 else found) none

/-- The lookup `rules[fieldName]` on a rule object written as an object literal with the
given entries: an own entry if there is one, otherwise the value inherited from
`Object.prototype` if `fieldName` names one, otherwise `undefined`. -/
def objectLiteral (entries : List (String × FieldRule)) : Rules := fun fieldName =>
  match ownEntry entries fieldName with
  | some rule => some rule
  | none => if fieldName ∈ objectPrototypeNames then some inheritedRule else none

/-! ## DOM state of a field -/

/-- An `.error-message` node: its text and its inline `style.display`. -/
structure ErrorElement where
  textContent : String
  display : String
deriving DecidableEq, Repr

/-- The `.error-message` nodes of the page, by node identity. -/
abbrev Nodes := Nat → ErrorElement

/-- An `input`, `select` or `textarea` element.  `label` is the text content of
`parentElement.querySelector('label')` and `errorElement` the identity of
`parentElement.querySelector('.error-message')`, `none` when the query finds nothing. -/
structure Input where
  name : String
  value : String
  classList : List String
  borderColor : String
  label : Option String
  errorElement : Option Nat
deriving DecidableEq, Repr

/-- `classList.add(token)`. -/
def classListAdd (cl : List String) (token : String) : List String :=
  if token ∈ cl then cl else cl ++ [token]

/-- `classList.remove(token)`. -/
def classListRemove (cl : List String) (token : String) : List String :=
  cl.filter (fun t => t != token)

/-- Assignment to one node of the store. -/
def setNode (nodes : Nodes) (k : Nat) (e : ErrorElement) : Nodes :=
  fun j => if j = k then e else nodes j

/-- `getFieldLabel(input)`: the label text with its first `*` removed, trimmed;
without a label, `name.charAt(0).toUpperCase() + name.slice(1)`.  `charAt(0)` is
one UTF-16 code unit: when the name starts with a code point outside the basic
plane it is an unpaired surrogate, which `toUpperCase` leaves alone, and the
concatenation gives the name back. -/
def getFieldLabel (upper : String → String) (input : Input) : String :=
  match input.label with
  | some text => jsTrim ⟨text.data.erase '*'⟩
  | none =>
    match input.name.data with
    | [] => upper "" ++ ""
    | c :: cs =>
      if c.toNat < 0x10000 then upper (String.singleton c) ++ ⟨cs⟩ else input.name

/-- `clearFieldError(input)`. -/
def clearFieldError (input : Input) (nodes : Nodes) : Input × Nodes :=
  let input1 := { input with classList := classListRemove input.classList "error" }
  let nodes1 :=
    match input.errorElement with
    | some k => setNode nodes k { nodes k with display := "none" }
    | none => nodes
  ({ input1 with borderColor := "" }, nodes1)

/-- `showFieldError(input, message)`. -/
def showFieldError (input : Input) (message : String) (nodes : Nodes) : Input × Nodes :=
  let (input0, nodes0) := clearFieldError input nodes
  let input1 := { input0 with classList := classListAdd input0.classList "error" }
  let nodes1 :=
    match input.errorElement with
    | some k => setNode nodes0 k { textContent := message, display := "block" }
    | none => nodes0
  ({ input1 with borderColor := "#ef4444" }, nodes1)

/-! ## validateField -/

/-- The test `fieldRule.pattern && !fieldRule.pattern.test(value)`. -/
def patternFails (fieldRule : FieldRule) (value : String) : Bool :=
  match fieldRule.pattern with
  | some p => !p value
  | none => false

/-- The expression ``fieldRule.message || `Invalid ${this.getFieldLabel(input)}` ``. -/
def patternMessage (upper : String → String) (input : Input) (fieldRule : FieldRule) : String :=
  match fieldRule.message with
  | some m => if truthy m then m else "Invalid " ++ getFieldLabel upper input
  | none => "Invalid " ++ getFieldLabel upper input

/-- The test `fieldRule.minLength && value.length < fieldRule.minLength`. -/
def tooShort (fieldRule : FieldRule) (value : String) : Bool :=
  match fieldRule.minLength with
  | some n => n != 0 && decide ((jsLength value : Int) < n)
  | none => false

/-- The test `fieldRule.maxLength && value.length > fieldRule.maxLength`. -/
def tooLong (fieldRule : FieldRule) (value : String) : Bool :=
  match fieldRule.maxLength with
  | some n => n != 0 && decide ((jsLength value : Int) > n)
  | none => false

/-- A numeric rule property inside a template literal. -/
def boundToString : Option Int → String
  | some n => numberToString n
  | none => "undefined"

/-- The locals `isValid` and `errorMessage` of `validateField` after its chain of
checks (lines 226-249), for a field that has the rule `fieldRule`. -/
def validateFieldChecks (upper : String → String) (input : Input) (fieldRule : FieldRule) :
    Bool × String :=
  let value := jsTrim input.value
  if fieldRule.required && !truthy value then
    (false, getFieldLabel upper input ++ " is required")
  else if truthy value && patternFails fieldRule value then
    (false, patternMessage upper input fieldRule)
  else if truthy value then
    if tooShort fieldRule value then
      (false, getFieldLabel upper input ++ " must be at least " ++
        boundToString fieldRule.minLength ++ " characters")
    else if tooLong fieldRule value then
      (false, getFieldLabel upper input ++ " must not exceed " ++
        boundToString fieldRule.maxLength ++ " characters")
    else (true, "")
  else (true, "")

/-- What one call of `validateField` leaves behind: the returned `isValid`, the
`errorMessage` local, the field and the node store after the side effect. -/
structure FieldResult where
  isValid : Bool
  errorMessage : String
  input : Input
  nodes : Nodes

/-- `validateField(input, rules)`. -/
def validateField (upper : String → String) (input : Input) (rules : Rules) (nodes : Nodes) :
    FieldResult :=
  match rules input.name with
  | none => { isValid := true, errorMessage := "", input := input, nodes := nodes }
  | some fieldRule =>
    let (isValid, errorMessage) := validateFieldChecks upper input fieldRule
    let (input1, nodes1) :=
      if isValid then clearFieldError input nodes else showFieldError input errorMessage nodes
    { isValid := isValid, errorMessage := errorMessage, input := input1, nodes := nodes1 }

/-- One iteration of the `forEach` loop of `validateForm`: the accumulator holds the
`isValid` flag, the fields already visited (as the loop left them) and the node store. -/
def validateFormStep (upper : String → String) (rules : Rules)
    (acc : Bool × List Input × Nodes) (input : Input) : Bool × List Input × Nodes :=
  let r := validateField upper input rules acc.2.2
  ((if !r.isValid then false else acc.1), acc.2.1 ++ [r.input], r.nodes)

/-- `validateForm(form, rules)`: `inputs` is `form.querySelectorAll('input, select, textarea')`
in document order.  Returns `isValid`, the fields and the node store after the loop. -/
def validateForm (upper : String → String) (inputs : List Input) (rules : Rules)
    (nodes : Nodes) : Bool × List Input × Nodes :=
  inputs.foldl (validateFormStep upper rules) (true, [], nodes)

/-- The node store after `validateField` ran over `inputs` in order. -/
def nodesAfter (upper : String → String) (rules : Rules) (nodes : Nodes) :
    List Input → Nodes
  | [] => nodes
  | input :: rest => nodesAfter upper rules (validateField upper input rules nodes).nodes rest

/-! ## Submission lifecycle -/

/-- The `button[type="submit"]` of a form. -/
structure Button where
  disabled : Bool
  innerHTML : String
  classList : List String
deriving DecidableEq, Repr

/-- The `.form-message` node of a form (the banner). -/
structure MessageElement where
  textContent : String
  className : String
  display : String
deriving DecidableEq, Repr

/-- The callbacks handed to `setTimeout` by the success and error handlers. -/
inductive TimerAction
  | resetAndClearErrors
  | clearFormMessage
deriving DecidableEq, Repr

/-- A pending `setTimeout`: its delay in milliseconds and its callback. -/
structure Timer where
  delay : Nat
  action : TimerAction
deriving DecidableEq, Repr

/-- A registered form: the registration record (`type`, `rules`, `isSubmitting`) and
the part of the page the handlers read and write.  `messageElement` and `submitButton` are
what `form.querySelector` finds, `none` for `null`.  `timers` lists the callbacks scheduled
so far and `submitCalls` counts the invocations of `this.submitForm`. -/
structure FormState where
  type : String
  rules : Rules
  isSubmitting : Bool
  inputs : List Input
  nodes : Nodes
  messageElement : Option MessageElement
  submitButton : Option Button
  timers : List Timer
  submitCalls : Nat

/-- `showFormMessage(form, message, type)`; scrolling the viewport is not part of the state. -/
def showFormMessage (s : FormState) (message : String) (type : String) : FormState :=
  { s with messageElement := s.messageElement.map fun _ =>
      { textContent := message, className := "form-message " ++ type, display := "block" } }

/-- `clearFormMessage(form)`. -/
def clearFormMessage (s : FormState) : FormState :=
  { s with messageElement := s.messageElement.map fun m => { m with display := "none" } }

/-- `showLoadingState(button)`. -/
def showLoadingState (button : Button) : Button :=
  { disabled := true, innerHTML := "<div class=\"spinner\"></div> Submitting...",
    classList := classListAdd button.classList "loading" }

/-- `hideLoadingState(button, originalText)`. -/
def hideLoadingState (button : Button) (originalText : String) : Button :=
  { disabled := false, innerHTML := originalText,
    classList := classListRemove button.classList "loading" }

/-- `handleFormSuccess(form, type)`. -/
def handleFormSuccess (s : FormState) : FormState :=
  let successMessage :=
    if s.type = "contact" then
      "Thank you for your message! We will get back to you within 24 hours."
    else if s.type = "newsletter" then "Successfully subscribed to our newsletter!"
    else "Form submitted successfully!"
  let s1 := showFormMessage s successMessage "success"
  { s1 with timers := s1.timers ++
      [{ delay := 1000, action := TimerAction.resetAndClearErrors },
       { delay := 5000, action := TimerAction.clearFormMessage }] }

/-- `handleFormError(form, errorMessage)`. -/
def handleFormError (s : FormState) (errorMessage : String) : FormState :=
  let s1 := showFormMessage s errorMessage "error"
  { s1 with timers := s1.timers ++ [{ delay := 10000, action := TimerAction.clearFormMessage }] }

/-- How the awaited `this.submitForm(form, type)` settles: fulfilled, rejected with an
error object whose `message` is the given string, or rejected with `null`/`undefined`
(reading `error.message` in the `catch` block then throws). -/
inductive SubmitOutcome
  | resolved
  | rejected (message : String)
  | rejectedNullish
deriving DecidableEq, Repr

/-- Where an invocation of the `async` function `handleFormSubmit` stands: it returned,
it ended with an uncaught exception, or it is suspended at `await this.submitForm(...)`
holding its local `originalButtonText`. -/
inductive Pass
  | returned (s : FormState)
  | threw (s : FormState)
  | awaiting (s : FormState) (originalButtonText : String)

/-- The form state carried by a `Pass`. -/
def Pass.state : Pass → FormState
  | Pass.returned s => s
  | Pass.threw s => s
  | Pass.awaiting s _ => s

/-- `handleFormSubmit(form, formData)` up to its `await`: the guard, the validation, the
entry into the submitting state and the call of `this.submitForm`.  Without a submit button
`submitButton.innerHTML` throws a `TypeError` after `isSubmitting` was set. -/
def handleFormSubmitStart (upper : String → String) (s : FormState) : Pass :=
  if s.isSubmitting then Pass.returned s
  else
    let v := validateForm upper s.inputs s.rules s.nodes
    let s1 := { s with inputs := v.2.1, nodes := v.2.2 }
    if !v.1 then Pass.returned (showFormMessage s1 "Please correct the errors above." "error")
    else
      let s2 := { s1 with isSubmitting := true }
      match s2.submitButton with
      | none => Pass.threw s2
      | some button =>
        let originalButtonText := button.innerHTML
        let s3 := { s2 with submitButton := some (showLoadingState button) }
        let s4 := clearFormMessage s3
        Pass.awaiting { s4 with submitCalls := s4.submitCalls + 1 } originalButtonText

/-- The `finally` block of `handleFormSubmit`. -/
def finallyBlock (s : FormState) (originalButtonText : String) : FormState :=
  { s with isSubmitting := false,
           submitButton := s.submitButton.map fun b => hideLoadingState b originalButtonText }

/-- `handleFormSubmit` from the point where the awaited submit operation settles: the
`try` continuation or the `catch` block, then the `finally` block. -/
def handleFormSubmitResume (s : FormState) (originalButtonText : String)
    (outcome : SubmitOutcome) : Pass :=
  match outcome with
  | SubmitOutcome.resolved => Pass.returned (finallyBlock (handleFormSuccess s) originalButtonText)
  | SubmitOutcome.rejected message =>
    Pass.returned (finallyBlock (handleFormError s message) originalButtonText)
  | SubmitOutcome.rejectedNullish => Pass.threw (finallyBlock s originalButtonText)

/-- One whole handling pass of `handleFormSubmit`, with nothing else running between the
call of the submit operation and its settling with `outcome`. -/
def handleFormSubmit (upper : String → String) (s : FormState) (outcome : SubmitOutcome) :
    Pass :=
  match handleFormSubmitStart upper s with
  | Pass.awaiting s1 originalButtonText => handleFormSubmitResume s1 originalButtonText outcome
  | p => p

/-- The form after `n` submit events in a row, none of the submit operations having
settled yet: each event runs `handleFormSubmit` up to its `await`. -/
def submitEvents (upper : String → String) : Nat → FormState → FormState
  | 0, s => s
  | n + 1, s => submitEvents upper n (handleFormSubmitStart upper s).state

/-! ## registerForm -/

/-- A form element as `registerForm` sees it: its `id` and, for every
input/select/textarea descendant in document order, the value of its `type` property. -/
structure FormElement where
  id : String
  inputTypes : List String
deriving DecidableEq, Repr

/-- The object `formData` built by `registerForm`. -/
structure Registration where
  element : FormElement
  type : String
  rules : Rules
  isSubmitting : Bool

/-- What a listener installed by `bindFormEvents` does when it runs. -/
inductive Handler
  | handleFormSubmit
  | validateField
  | clearFieldError
  | debouncedValidateField (wait : Nat)
deriving DecidableEq, Repr

/-- One `addEventListener` call of `bindFormEvents`: the form, the field it was attached to
(`none` for the form itself), the event name, the handler, and which `formData` object was
in scope (objects are identified by their position in `FormValidator.records`). -/
structure Listener where
  form : FormElement
  input : Option Nat
  event : String
  handler : Handler
  formData : Nat
deriving DecidableEq, Repr

/-- A `FormValidator` instance: every `formData` object created so far, the map
`this.forms` from form id to one of these objects, and the listeners attached so far. -/
structure FormValidator where
  records : List Registration
  forms : String → Option Nat
  listeners : List Listener

/-- `this.forms.get(id)`. -/
def FormValidator.get (v : FormValidator) (id : String) : Option Registration :=
  (v.forms id).bind fun i => v.records.get? i

/-- The listeners `bindFormEvents` attaches to the fields, from field number `i` on. -/
def inputListeners (form : FormElement) (formData : Nat) : Nat → List String → List Listener
  | _, [] => []
  | i, type :: rest =>
    [{ form := form, input := some i, event := "blur", handler := Handler.validateField,
       formData := formData },
     { form := form, input := some i, event := "input", handler := Handler.clearFieldError,
       formData := formData }] ++
    (if type = "email" then
      [{ form := form, input := some i, event := "input",
         handler := Handler.debouncedValidateField 500, formData := formData }]
     else []) ++
    inputListeners form formData (i + 1) rest

/-- `bindFormEvents(form, formData)`. -/
def bindFormEvents (v : FormValidator) (form : FormElement) (formData : Nat) : FormValidator :=
  { v with listeners := v.listeners ++
      [{ form := form, input := none, event := "submit", handler := Handler.handleFormSubmit,
         formData := formData }] ++
      inputListeners form formData 0 form.inputTypes }

/-- `registerForm(type, formElement, validationRules)`. -/
def registerForm (v : FormValidator) (type : String) (formElement : FormElement)
    (validationRules : Rules) : FormValidator :=
  let formData : Registration :=
    { element := formElement, type := type, rules := validationRules, isSubmitting := false }
  let v1 : FormValidator :=
    { v with records := v.records ++ [formData],
             forms := fun id => if id = formElement.id then some v.records.length else v.forms id }
  bindFormEvents v1 formElement v.records.length

/-! ## debounce -/

/-- An active timer of the host: the handle `setTimeout` returned, the time (in ms) at
which it is due, and the arguments captured by its callback `later`. -/
structure PendingTimer (α : Type) where
  handle : Nat
  due : Nat
  args : α

/-- The closure returned by `debounce(func, wait)` together with the host's timer table:
the closure variable `timeout`, the next handle `setTimeout` will hand out, the active
timers in the order they were set, and the log of the invocations of `func` (time and
arguments). -/
structure Debounced (α : Type) where
  wait : Nat
  timeout : Option Nat
  nextHandle : Nat
  pending : List (PendingTimer α)
  calls : List (Nat × α)

/-- `debounce(func, wait)`: `timeout` is still `undefined`, no timer is set. -/
def debounce {α : Type} (wait : Nat) : Debounced α :=
  { wait := wait, timeout := none, nextHandle := 0, pending := [], calls := [] }

/-- `clearTimeout(handle)` on a timer table. -/
def clearTimeout {α : Type} (pending : List (PendingTimer α)) (handle : Option Nat) :
    List (PendingTimer α) :=
  pending.filter fun p => some p.handle != handle

/-- The callback `later` of timer `t` runs (at the time the timer is due):
`clearTimeout(timeout); func(...args)`. -/
def later {α : Type} (d : Debounced α) (t : PendingTimer α) : Debounced α :=
  { d with pending := clearTimeout d.pending d.timeout, calls := d.calls ++ [(t.due, t.args)] }

/-- The host lets the timers that are due at time `now` fire, oldest first. -/
def runTimers {α : Type} (now : Nat) : Nat → Debounced α → Debounced α
  | 0, d => d
  | fuel + 1, d =>
    match d.pending with
    | [] => d
    | t :: rest =>
      if t.due ≤ now then runTimers now fuel (later { d with pending := rest } t) else d

/-- Time passes until `now`. -/
def advance {α : Type} (now : Nat) (d : Debounced α) : Debounced α :=
  runTimers now d.pending.length d

/-- `executedFunction(...args)` called at time `now`:
`clearTimeout(timeout); timeout = setTimeout(later, wait)`. -/
def executedFunction {α : Type} (d : Debounced α) (now : Nat) (args : α) : Debounced α :=
  { d with pending := clearTimeout d.pending d.timeout ++
             [{ handle := d.nextHandle, due := now + d.wait, args := args }],
           timeout := some d.nextHandle,
           nextHandle := d.nextHandle + 1 }

/-- A sequence of calls of the debounced function, each given by the time elapsed since
the previous call (since `t` for the first one) and its arguments.  Returns the final state
and the time of the last call. -/
def burst {α : Type} (d : Debounced α) (t : Nat) : List (Nat × α) → Debounced α × Nat
  | [] => (d, t)
  | (gap, args) :: rest =>
    burst (executedFunction (advance (t + gap) d) (t + gap) args) (t + gap) rest

/-! ## The rule sets of `initializeForms` -/

/-- Characters accepted by `[^\s@]`. -/
def emailChar (c : Char) : Bool := !isWhiteSpace c && c != '@'

/-- The pattern `/^[^\s@]+@[^\s@]+\.[^\s@]+$/`: the string splits as `A@B.C`
with `A`, `B`, `C` non-empty runs of characters that are neither white space nor `@`. -/
def emailPattern (s : String) : Bool :=
  let cs := s.data
  (List.range cs.length).any fun i =>
    (List.range cs.length).any fun j =>
      decide (0 < i) && decide (i + 1 < j) && decide (j + 1 < cs.length) &&
      cs.get? i == some '@' && cs.get? j == some '.' &&
      (cs.take i).all emailChar &&
      ((cs.take j).drop (i + 1)).all emailChar &&
      (cs.drop (j + 1)).all emailChar

/-- The pattern `/^[a-zA-Z\s'-]+$/`. -/
def namePattern (s : String) : Bool :=
  !s.data.isEmpty &&
  s.data.all fun c =>
    ('a' ≤ c && c ≤ 'z') || ('A' ≤ c && c ≤ 'Z') || isWhiteSpace c || c == '\'' || c == '-'

/-- The pattern `/^[\+]?[\d\s\-\(\)]+$/`. -/
def phonePattern (s : String) : Bool :=
  let body (cs : List Char) : Bool :=
    !cs.isEmpty &&
    cs.all fun c => ('0' ≤ c && c ≤ '9') || isWhiteSpace c || c == '-' || c == '(' || c == ')'
  match s.data with
  | '+' :: cs => body cs
  | cs => body cs

/-- The `name` rule of the contact form. -/
def nameRule : FieldRule :=
  { required := true, minLength := some 2, maxLength := none, pattern := some namePattern,
    message := some "Please enter a valid name (letters, spaces, hyphens, and apostrophes only)" }

/-- The `email` rule of the contact form and of the newsletter forms. -/
def emailRule : FieldRule :=
  { required := true, minLength := none, maxLength := none, pattern := some emailPattern,
    message := some "Please enter a valid email address" }

/-- The `phone` rule of the contact form. -/
def phoneRule : FieldRule :=
  { required := false, minLength := none, maxLength := none, pattern := some phonePattern,
    message := some "Please enter a valid phone number" }

/-- The `subject` rule of the contact form. -/
def subjectRule : FieldRule :=
  { required := true, minLength := none, maxLength := none, pattern := none,
    message := some "Please select a subject" }

/-- The `message` rule of the contact form. -/
def messageRule : FieldRule :=
  { required := true, minLength := some 10, maxLength := some 1000, pattern := none,
    message := some "Message must be between 10 and 1000 characters" }

/-- The entries of the object literal registered for `#contact-form`. -/
def contactEntries : List (String × FieldRule) :=
  [("name", nameRule), ("email", emailRule), ("phone", phoneRule), ("subject", subjectRule),
   ("message", messageRule)]

/-- Rules registered for `#contact-form`. -/
def contactRules : Rules := objectLiteral contactEntries

/-- Rules registered for every newsletter form. -/
def newsletterRules : Rules := objectLiteral [("email", emailRule)]

/-- An upper-casing function that covers the ASCII letters; used for concrete evaluation. -/
def asciiUpperCase (s : String) : String := ⟨s.data.map Char.toUpper⟩

/-- A field as it is before any validation ran: no class, no border colour. -/
def freshInput (name value : String) (label : Option String) (errorElement : Option Nat) : Input :=
  { name := name, value := value, classList := [], borderColor := "",
    label := label, errorElement := errorElement }

/-- A store in which every error node is empty and hidden. -/
def hiddenNodes : Nodes := fun _ => { textContent := "", display := "none" }

/-- A contact form with an empty name, a malformed e-mail address and a message, each
field with an error node of its own. -/
def invalidInputs : List Input :=
  [freshInput "name" "" none (some 0),
   freshInput "email" "not-an-email" none (some 1),
   freshInput "message" "A message that is long enough." none (some 2)]

/-- Two fields under one parent element, so that both find the same `.error-message`
node `0`: an empty `name` (required) followed by an empty `phone` (optional). -/
def sharedNodeInputs : List Input :=
  [freshInput "name" "" none (some 0), freshInput "phone" "" none (some 0)]

/-- A field named `constructor` that carries error marks: the `error` class, the red
border, and the error node `0`. -/
def constructorInput : Input :=
  { name := "constructor", value := "anything", classList := ["error"],
    borderColor := "#ef4444", label := none, errorElement := some 0 }

/-- A contact form filled in correctly. -/
def validInputs : List Input :=
  [freshInput "name" "Ada Lovelace" none (some 0),
   freshInput "email" "ada@example.org" none (some 1),
   freshInput "phone" "" none (some 2),
   freshInput "subject" "General" none (some 3),
   freshInput "message" "A message that is long enough." none (some 4)]

/-- An idle contact form with the given fields and, possibly, a submit button. -/
def contactForm (inputs : List Input) (submitButton : Option Button) : FormState :=
  { type := "contact", rules := contactRules, isSubmitting := false, inputs := inputs,
    nodes := hiddenNodes,
    messageElement := some { textContent := "", className := "form-message", display := "none" },
    submitButton := submitButton, timers := [], submitCalls := 0 }

/-- A submit button labelled `Send Message`. -/
def sendButton : Button := { disabled := false, innerHTML := "Send Message", classList := ["btn"] }

/-- A field marked as invalid: `error` class, red border, error node `0`. -/
def markedInput : Input :=
  { name := "email", value := "x", classList := ["field", "error"], borderColor := "#ef4444",
    label := none, errorElement := some 0 }

/-- A store in which every error node is displayed with the text `Invalid`. -/
def shownNodes : Nodes := fun _ => { textContent := "Invalid", display := "block" }

/-- A contact form element with a text, an e-mail and a textarea field. -/
def contactElement : FormElement :=
  { id := "contact-form", inputTypes := ["text", "email", "textarea"] }

/-- A validator on which nothing has been registered yet. -/
def emptyValidator : FormValidator := { records := [], forms := fun _ => none, listeners := [] }

/-! ## The constraints of a rule, as the specification words them -/

/-- The specification's reading of "the value satisfies every constraint of the rule":
non-empty when `required` is set and, when non-empty, matching `pattern` (if given), of
length at least `minLength` (if given) and at most `maxLength` (if given). -/
def satisfiesRule (rule : FieldRule) (v : String) : Bool :=
  (!rule.required || v != "") &&
  (v == "" ||
    ((match rule.pattern with
      | some p => p v
      | none => true) &&
     (match rule.minLength with
      | some n => decide (n ≤ (jsLength v : Int))
      | none => true) &&
     (match rule.maxLength with
      | some n => decide ((jsLength v : Int) ≤ n)
      | none => true)))

/-- The same constraints with the upper bound read the way the code tests it: a
`maxLength` of `0` counts as not given. -/
def satisfiesRuleNonzeroMax (rule : FieldRule) (v : String) : Bool :=
  (!rule.required || v != "") &&
  (v == "" ||
    ((match rule.pattern with
      | some p => p v
      | none => true) &&
     (match rule.minLength with
      | some n => decide (n ≤ (jsLength v : Int))
      | none => true) &&
     (match rule.maxLength with
      | some n => n == 0 || decide ((jsLength v : Int) ≤ n)
      | none => true)))

/-- The rule `{ required: false, maxLength: 0 }`. -/
def zeroMaxRule : FieldRule :=
  { required := false, pattern := none, minLength := none, maxLength := some 0, message := none }

/-- The rule `{ required: true, minLength: 10, maxLength: 3 }`, whose bounds cannot both hold. -/
def crossedRule : FieldRule :=
  { required := true, pattern := none, minLength := some 10, maxLength := some 3, message := none }

/-- A rule object with the single entry `note: { required: true, minLength: 10, maxLength: 3 }`. -/
def crossedRules : Rules := objectLiteral [("note", crossedRule)]

/-- A rule object with the single entry `code: { required: false, maxLength: 0 }`. -/
def zeroMaxRules : Rules := objectLiteral [("code", zeroMaxRule)]

/-! ## FormUtils.formatPhoneNumber -/

/-- The class `\d`: an ASCII digit (`\D` is its complement). -/
def isAsciiDigit (c : Char) : Bool := '0' ≤ c && c ≤ '9'

/-- Whether a regular expression that is a fixed sequence of single-character classes
matches at the start of the text. -/
def matchesAt : List (Char → Bool) → List Char → Bool
  | [], _ => true
  | _ :: _, [] => false
  | p :: ps, c :: cs => p c && matchesAt ps cs

/-- The replacement `'$1 $2 $3'` laid over the text from the start of a match on: a space
is put after each group but the last; the last group and the text after the match follow
unchanged. -/
def spaceGroups : List Nat → List Char → List Char
  | [], cs => cs
  | [_], cs => cs
  | k :: ks, cs => cs.take k ++ ' ' :: spaceGroups ks (cs.drop k)

/-- `text.replace(re, '$1 $2 $3')` for a non-global, non-empty `re` given by its character
classes and the sizes of its groups: only the leftmost match is replaced. -/
def replaceFirst (classes : List (Char → Bool)) (sizes : List Nat) : List Char → List Char
  | [] => []
  | c :: cs =>
    if matchesAt classes (c :: cs) then spaceGroups sizes (c :: cs)
    else c :: replaceFirst classes sizes cs

/-- The character classes of `/(\+27\s\d{2})(\d{3})(\d{4})/`. -/
def southAfricanPattern : List (Char → Bool) :=
  [fun c => c == '+', fun c => c == '2', fun c => c == '7', isWhiteSpace] ++
    List.replicate 9 isAsciiDigit

/-- The character classes of `/(\d{3})(\d{3})(\d{4})/`. -/
def localPattern : List (Char → Bool) := List.replicate 10 isAsciiDigit

/-- `formatPhoneNumber` on the characters of `input.value`; the result is the new value. -/
def formatPhoneChars (input : List Char) : List Char :=
  let value := input.filter isAsciiDigit
  match value with
  | '2' :: '7' :: rest =>
    let value1 := '+' :: '2' :: '7' :: ' ' :: rest
    if jsLength ⟨value1⟩ > 7 then replaceFirst southAfricanPattern [6, 3, 4] value1
    else value1
  | _ =>
    if jsLength ⟨value⟩ = 10 then replaceFirst localPattern [3, 3, 4] value else value

/-- `FormUtils.formatPhoneNumber(input)`: maps `input.value` to the value it is given. -/
def formatPhoneNumber (value : String) : String := ⟨formatPhoneChars value.data⟩

end Forms

/-! # Image gallery of `src/js/gallery.js` -/

namespace Gallery

/-- One entry of `this.images`. -/
structure ImageData where
  src : String
  alt : String
  title : String
  description : String
deriving DecidableEq, Repr

/-- The navigation state of an `ImageGallery`: the array `images` and `currentIndex`.
`loadImage`, `updateNavigation` and `updateThumbnails` only write to the modal; they read
these two fields and never assign them, so they are not part of the state. -/
structure ImageGallery where
  images : List ImageData
  currentIndex : Int
deriving DecidableEq, Repr

/-- `prevImage()`. -/
def prevImage (g : ImageGallery) : ImageGallery :=
  if g.images.length = 0 then g
  else
    { g with currentIndex :=
        if g.currentIndex > 0 then g.currentIndex - 1 else (g.images.length : Int) - 1 }

/-- `nextImage()`. -/
def nextImage (g : ImageGallery) : ImageGallery :=
  if g.images.length = 0 then g
  else
    { g with currentIndex :=
        if g.currentIndex < (g.images.length : Int) - 1 then g.currentIndex + 1 else 0 }

/-- `goToImage(index)` for an integer `index`. -/
def goToImage (g : ImageGallery) (index : Int) : ImageGallery :=
  if index ≥ 0 ∧ index < (g.images.length : Int) then { g with currentIndex := index } else g

/-- A picture with the given file name. -/
def picture (src : String) : ImageData :=
  { src := src, alt := "", title := src, description := "" }

/-- A gallery of three pictures showing the last one. -/
def threePictures : ImageGallery :=
  { images := [picture "a.jpg", picture "b.jpg", picture "c.jpg"], currentIndex := 2 }

end Gallery

/-! # Counter animation of `src/js/main.js`

A JavaScript number is an IEEE 754 double.  A finite double is modelled by the rational
number it denotes, and every arithmetic operation rounds its exact result to the nearest
double, ties to even (`roundDouble`).  `+Infinity` is represented by `infinity`, the
rational `2 ^ 1024`, which is above every finite double; in `animateCounter` it can only
arise as the sum `current + increment`, which is then compared with `end` and replaced by
it.  `NaN` and the sign of zero are not modelled. -/

namespace Main

/-- The integer nearest to `m`, the even one of the two when `m` lies half-way. -/
def roundHalfEven (m : ℚ) : Int :=
  let f := ⌊m⌋
  let r := m - f
  if r < 1 / 2 then f else if 1 / 2 < r then f + 1 else if f % 2 = 0 then f else f + 1

/-- Binary64 rounding of a positive rational, before the overflow check: the exponent is
that of `q`, at least `-1022` (below that the spacing of the subnormal numbers applies), and
the significand is rounded to 53 bits. -/
def roundPositive (q : ℚ) : ℚ :=
  let e := max (Int.log 2 q) (-1022)
  let ulp : ℚ := 2 ^ (e - 52)
  roundHalfEven (q / ulp) * ulp

/-- The stand-in for `+Infinity`: `2 ^ 1024`, larger than every finite double. -/
def infinity : ℚ := 2 ^ (1024 : Nat)

/-- The double nearest to the rational `q` (round to nearest, ties to even); a result of
magnitude `2 ^ 1024` or more overflows to infinity. -/
def roundDouble (q : ℚ) : ℚ :=
  if q = 0 then 0
  else if 0 < q then min (roundPositive q) infinity
  else -min (roundPositive (-q)) infinity

/-- The operator `+` on doubles. -/
def doubleAdd (x y : ℚ) : ℚ := roundDouble (x + y)

/-- The operator `-` on doubles. -/
def doubleSub (x y : ℚ) : ℚ := roundDouble (x - y)

/-- The operator `/` on doubles, for a divisor other than zero. -/
def doubleDiv (x y : ℚ) : ℚ := roundDouble (x / y)

/-- The state of one `animateCounter` run: the closure variable `current`, whether
`clearInterval(timer)` has been called, the element's `textContent`, and the values
`Math.floor(current)` written to the element so far, oldest first. -/
structure CounterState where
  current : ℚ
  cleared : Bool
  textContent : String
  written : List Int

/-- One run of the interval callback; `toLocaleString` is the host's
`Number.prototype.toLocaleString` on integers. -/
def counterTick (toLocaleString : Int → String) (endValue increment : ℚ)
    (suffix : String) (c : CounterState) : CounterState :=
  let current1 := doubleAdd c.current increment
  let reached : Bool := decide (current1 ≥ endValue)
  let current2 := if reached then endValue else current1
  { current := current2,
    cleared := c.cleared || reached,
    textContent := toLocaleString ⌊current2⌋ ++ suffix,
    written := c.written ++ [⌊current2⌋] }

/-- The interval timer: the callback runs once per 16 ms tick for as long as the timer
has not been cleared; `ticks` is the number of ticks that have elapsed. -/
def runInterval (callback : CounterState → CounterState) : Nat → CounterState → CounterState
  | 0, c => c
  | ticks + 1, c => if c.cleared then c else runInterval callback ticks (callback c)

/-- `animateCounter(element, start, end, suffix, duration)` observed after `ticks` ticks of
16 ms; `text0` is the text the element had before. -/
def animateCounter (toLocaleString : Int → String) (text0 : String) (start endValue : ℚ)
    (suffix : String) (duration : ℚ) (ticks : Nat) : CounterState :=
  let range := doubleSub endValue start
  let increment := doubleDiv range (doubleDiv duration 16)
  runInterval (counterTick toLocaleString endValue increment suffix) ticks
    { current := start, cleared := false, textContent := text0, written := [] }

end Main

open Forms Gallery Main

/-! ## Basic facts about `validateField` -/

theorem validateField_isValid (upper : String → String) (input : Input) (rules : Rules)
    (rule : FieldRule) (nodes : Nodes) (h : rules input.name = some rule) :
    (validateField upper input rules nodes).isValid = (validateFieldChecks upper input rule).1 := by
  unfold validateField
  rw [h]

theorem validateField_errorMessage (upper : String → String) (input : Input) (rules : Rules)
    (rule : FieldRule) (nodes : Nodes) (h : rules input.name = some rule) :
    (validateField upper input rules nodes).errorMessage =
      (validateFieldChecks upper input rule).2 := by
  unfold validateField
  rw [h]

theorem truthy_eq_false_iff (s : String) : truthy s = false ↔ s = "" := by
  simp [truthy]

theorem truthy_eq_true_iff (s : String) : truthy s = true ↔ s ≠ "" := by
  simp [truthy]

theorem checks_of_empty (upper : String → String) (input : Input) (rule : FieldRule)
    (hv : jsTrim input.value = "") :
    validateFieldChecks upper input rule =
      if rule.required then (false, getFieldLabel upper input ++ " is required")
      else (true, "") := by
  unfold validateFieldChecks
  cases hr : rule.required <;> simp [hv, truthy]

theorem checks_of_nonempty (upper : String → String) (input : Input) (rule : FieldRule)
    (hv : jsTrim input.value ≠ "") :
    validateFieldChecks upper input rule =
      if patternFails rule (jsTrim input.value) then (false, patternMessage upper input rule)
      else if tooShort rule (jsTrim input.value) then
        (false, getFieldLabel upper input ++ " must be at least " ++
          boundToString rule.minLength ++ " characters")
      else if tooLong rule (jsTrim input.value) then
        (false, getFieldLabel upper input ++ " must not exceed " ++
          boundToString rule.maxLength ++ " characters")
      else (true, "") := by
  unfold validateFieldChecks
  cases hr : rule.required <;> simp [hv, truthy]

/-! ## C1 -/

theorem checks_valid_iff (upper : String → String) (input : Input) (rule : FieldRule) :
    (validateFieldChecks upper input rule).1 = true ↔
      satisfiesRuleNonzeroMax rule (jsTrim input.value) = true := by
  unfold validateFieldChecks satisfiesRuleNonzeroMax
  rcases rule with ⟨req, pat, mn, mx, msg⟩
  by_cases hv : jsTrim input.value = ""
  · cases req <;> simp [hv, truthy]
  · cases req <;> cases pat <;> cases mn <;> cases mx <;>
      simp [hv, truthy, patternFails, tooShort, tooLong] <;> split_ifs <;> simp_all <;> omega

/-- C1 as stated fails: under the rule `{ required: false, maxLength: 0 }` the value `"a"`
(length 1, above the bound) is accepted by `validateField`, because the truthiness test
`fieldRule.maxLength && ...` skips a bound of `0`. -/
theorem validateField_iff_satisfiesRule_counterexample :
    zeroMaxRules (freshInput "code" "a" none none).name = some zeroMaxRule ∧
    (validateField asciiUpperCase (freshInput "code" "a" none none) zeroMaxRules
      hiddenNodes).isValid = true ∧
    satisfiesRule zeroMaxRule (jsTrim (freshInput "code" "a" none none).value) = false :=
  ⟨rfl, by decide, by decide⟩

/-- C1 (amended): for a field whose name has a rule, `validateField` returns true exactly
when the trimmed value is non-empty if `required` is set and, when non-empty, matches the
pattern (if given), has length at least `minLength` (if given) and at most `maxLength`
(if given and not `0`). -/
theorem validateField_true_iff_satisfiesRuleNonzeroMax (upper : String → String)
    (input : Input) (rules : Rules) (rule : FieldRule) (nodes : Nodes)
    (h : rules input.name = some rule) :
    (validateField upper input rules nodes).isValid = true ↔
      satisfiesRuleNonzeroMax rule (jsTrim input.value) = true := by
  rw [validateField_isValid upper input rules rule nodes h]
  exact checks_valid_iff upper input rule

theorem validateField_true_iff_satisfiesRuleNonzeroMax_witness :
    contactRules (freshInput "message" "  a long enough message  " none (some 0)).name =
      some messageRule ∧
    ((validateField asciiUpperCase (freshInput "message" "  a long enough message  " none (some 0))
      contactRules hiddenNodes).isValid = true ↔
      satisfiesRuleNonzeroMax messageRule
        (jsTrim (freshInput "message" "  a long enough message  " none (some 0)).value) = true) ∧
    satisfiesRuleNonzeroMax messageRule
        (jsTrim (freshInput "message" "  a long enough message  " none (some 0)).value) = true :=
  ⟨rfl,
   validateField_true_iff_satisfiesRuleNonzeroMax asciiUpperCase
      (freshInput "message" "  a long enough message  " none (some 0)) contactRules
      messageRule hiddenNodes rfl,
   by decide⟩

/-! ## C2 -/

/-- C2: under a rule with `required = false`, a value that is empty after trimming
(white space only included) is valid whatever `pattern`, `minLength` and `maxLength` are. -/
theorem validateField_optional_empty (upper : String → String) (input : Input)
    (rules : Rules) (rule : FieldRule) (nodes : Nodes)
    (h : rules input.name = some rule) (hreq : rule.required = false)
    (hv : jsTrim input.value = "") :
    (validateField upper input rules nodes).isValid = true := by
  rw [validateField_isValid upper input rules rule nodes h]
  unfold validateFieldChecks
  simp [hreq, hv, truthy]

theorem validateField_optional_empty_witness :
    contactRules (freshInput "phone" " \t\u00a0 " none (some 0)).name = some phoneRule ∧
    phoneRule.required = false ∧
    jsTrim (freshInput "phone" " \t\u00a0 " none (some 0)).value = "" ∧
    (validateField asciiUpperCase (freshInput "phone" " \t\u00a0 " none (some 0)) contactRules
      hiddenNodes).isValid = true :=
  ⟨rfl, rfl, by decide,
   validateField_optional_empty asciiUpperCase (freshInput "phone" " \t\u00a0 " none (some 0))
     contactRules phoneRule hiddenNodes rfl rfl (by decide)⟩

/-! ## C3 -/

theorem atLeast_ne_notExceed (L a b : String) :
    L ++ " must be at least " ++ a ++ " characters" ≠
      L ++ " must not exceed " ++ b ++ " characters" := by
  intro h
  have h2 := congrArg String.data h
  simp only [String.data_append, List.append_assoc, List.append_cancel_left_eq] at h2
  simp at h2

/-- C3: `validateField` stops at the first failing check.  For a non-empty trimmed value
that fails the pattern the result is invalid with the pattern message, whatever the length
bounds are; for a non-empty trimmed value that passes the pattern check and is shorter than
`minLength` the message is the `minLength` message, and it is not the `maxLength` message
for any bound. -/
theorem validateField_first_failure (upper : String → String) (input : Input)
    (rules : Rules) (rule : FieldRule) (nodes : Nodes)
    (h : rules input.name = some rule) (hv : jsTrim input.value ≠ "") :
    (patternFails rule (jsTrim input.value) = true →
      (validateField upper input rules nodes).isValid = false ∧
      (validateField upper input rules nodes).errorMessage = patternMessage upper input rule) ∧
    (patternFails rule (jsTrim input.value) = false →
      ∀ n : Int, rule.minLength = some n → (jsLength (jsTrim input.value) : Int) < n →
        (validateField upper input rules nodes).isValid = false ∧
        (validateField upper input rules nodes).errorMessage =
          getFieldLabel upper input ++ " must be at least " ++ numberToString n ++
            " characters" ∧
        ∀ m : Int, (validateField upper input rules nodes).errorMessage ≠
          getFieldLabel upper input ++ " must not exceed " ++ numberToString m ++
            " characters") := by
  rw [validateField_isValid upper input rules rule nodes h,
    validateField_errorMessage upper input rules rule nodes h]
  rw [checks_of_nonempty upper input rule hv]
  refine ⟨fun hp => ?_, fun hp n hn hlt => ?_⟩
  · simp [hp]
  · have hn0 : n ≠ 0 := by
      intro h0
      rw [h0] at hlt
      omega
    have hshort : tooShort rule (jsTrim input.value) = true := by
      simp [tooShort, hn, hn0, hlt]
    simp only [hp, hshort, hn, boundToString, Bool.false_eq_true, if_false, if_true, true_and]
    exact fun m => atLeast_ne_notExceed _ _ _

theorem validateField_first_failure_witness :
    (contactRules (freshInput "name" "7" none (some 0)).name = some nameRule ∧
     jsTrim (freshInput "name" "7" none (some 0)).value ≠ "" ∧
     patternFails nameRule (jsTrim (freshInput "name" "7" none (some 0)).value) = true ∧
     tooShort nameRule (jsTrim (freshInput "name" "7" none (some 0)).value) = true ∧
     (validateField asciiUpperCase (freshInput "name" "7" none (some 0)) contactRules
        hiddenNodes).errorMessage =
       "Please enter a valid name (letters, spaces, hyphens, and apostrophes only)") ∧
    (crossedRules (freshInput "note" "hello" none (some 0)).name = some crossedRule ∧
     tooLong crossedRule (jsTrim (freshInput "note" "hello" none (some 0)).value) = true ∧
     (validateField asciiUpperCase (freshInput "note" "hello" none (some 0)) crossedRules
        hiddenNodes).errorMessage = "Note must be at least 10 characters") :=
  ⟨⟨rfl, by decide, by decide, by decide,
    ((validateField_first_failure asciiUpperCase (freshInput "name" "7" none (some 0))
      contactRules nameRule hiddenNodes rfl (by decide)).1 (by decide)).2⟩,
   ⟨rfl, by decide,
    (((validateField_first_failure asciiUpperCase (freshInput "note" "hello" none (some 0))
      crossedRules crossedRule hiddenNodes rfl (by decide)).2 (by decide)) 10 rfl
        (by decide)).2.1⟩⟩

/-! ## C4 -/

theorem getFieldLabel_name (upper : String → String) (input : Input)
    (hname : input.name = "name") (hlabel : input.label = none) (hup : upper "n" = "N") :
    getFieldLabel upper input = "Name" := by
  unfold getFieldLabel
  rw [hlabel, hname]
  show (if 'n'.toNat < 0x10000 then upper (String.singleton 'n') ++ ⟨['a', 'm', 'e']⟩
    else "name") = "Name"
  rw [if_pos (by decide)]
  show upper "n" ++ "ame" = "Name"
  rw [hup]
  decide

/-- C4: for a field whose rule has `required = true` and whose trimmed value is empty,
`validateField` returns false and the message is the label followed by ` is required`;
a field named `name` without a label element gives `Name is required`. -/
theorem validateField_required_empty (upper : String → String) (input : Input)
    (rules : Rules) (rule : FieldRule) (nodes : Nodes)
    (h : rules input.name = some rule) (hreq : rule.required = true)
    (hv : jsTrim input.value = "") :
    (validateField upper input rules nodes).isValid = false ∧
    (validateField upper input rules nodes).errorMessage =
      getFieldLabel upper input ++ " is required" ∧
    (input.name = "name" → input.label = none → upper "n" = "N" →
      (validateField upper input rules nodes).errorMessage = "Name is required") := by
  rw [validateField_isValid upper input rules rule nodes h,
    validateField_errorMessage upper input rules rule nodes h,
    checks_of_empty upper input rule hv, hreq]
  refine ⟨rfl, rfl, fun hname hlabel hup => ?_⟩
  show getFieldLabel upper input ++ " is required" = "Name is required"
  rw [getFieldLabel_name upper input hname hlabel hup]
  decide

theorem validateField_required_empty_witness :
    contactRules (freshInput "name" "" none (some 0)).name = some nameRule ∧
    nameRule.required = true ∧
    jsTrim (freshInput "name" "" none (some 0)).value = "" ∧
    asciiUpperCase "n" = "N" ∧
    (validateField asciiUpperCase (freshInput "name" "" none (some 0)) contactRules
      hiddenNodes).isValid = false ∧
    (validateField asciiUpperCase (freshInput "name" "" none (some 0)) contactRules
      hiddenNodes).errorMessage = "Name is required" :=
  ⟨rfl, rfl, by decide, by decide,
   (validateField_required_empty asciiUpperCase (freshInput "name" "" none (some 0))
     contactRules nameRule hiddenNodes rfl rfl (by decide)).1,
   (validateField_required_empty asciiUpperCase (freshInput "name" "" none (some 0))
     contactRules nameRule hiddenNodes rfl rfl (by decide)).2.2 rfl rfl (by decide)⟩

/-! ## C5 -/

/-- C5: for a field whose trimmed value is non-empty and does not match the rule's
pattern, `validateField` returns false; the message is the rule's configured message when
that is a non-empty string, and `Invalid ` followed by the label when the rule has no
message or an empty one. -/
theorem validateField_pattern_failure (upper : String → String) (input : Input)
    (rules : Rules) (rule : FieldRule) (nodes : Nodes) (p : String → Bool)
    (h : rules input.name = some rule) (hv : jsTrim input.value ≠ "")
    (hp : rule.pattern = some p) (hfail : p (jsTrim input.value) = false) :
    (validateField upper input rules nodes).isValid = false ∧
    (∀ m, rule.message = some m → m ≠ "" →
      (validateField upper input rules nodes).errorMessage = m) ∧
    (rule.message = none ∨ rule.message = some "" →
      (validateField upper input rules nodes).errorMessage =
        "Invalid " ++ getFieldLabel upper input) := by
  have hpf : patternFails rule (jsTrim input.value) = true := by
    simp [patternFails, hp, hfail]
  rw [validateField_isValid upper input rules rule nodes h,
    validateField_errorMessage upper input rules rule nodes h,
    checks_of_nonempty upper input rule hv, hpf]
  refine ⟨rfl, fun m hm hne => ?_, fun hm => ?_⟩
  · simp [patternMessage, hm, truthy, hne]
  · rcases hm with hm | hm <;> simp [patternMessage, hm, truthy]

theorem validateField_pattern_failure_witness :
    contactRules (freshInput "email" "not-an-email" none (some 0)).name = some emailRule ∧
    jsTrim (freshInput "email" "not-an-email" none (some 0)).value ≠ "" ∧
    emailRule.pattern = some emailPattern ∧
    emailPattern (jsTrim (freshInput "email" "not-an-email" none (some 0)).value) = false ∧
    (validateField asciiUpperCase (freshInput "email" "not-an-email" none (some 0))
      contactRules hiddenNodes).isValid = false ∧
    (validateField asciiUpperCase (freshInput "email" "not-an-email" none (some 0))
      contactRules hiddenNodes).errorMessage = "Please enter a valid email address" :=
  ⟨rfl, by decide, rfl, by decide,
   (validateField_pattern_failure asciiUpperCase
     (freshInput "email" "not-an-email" none (some 0)) contactRules emailRule hiddenNodes
     emailPattern rfl (by decide) rfl (by decide)).1,
   (validateField_pattern_failure asciiUpperCase
     (freshInput "email" "not-an-email" none (some 0)) contactRules emailRule hiddenNodes
     emailPattern rfl (by decide) rfl (by decide)).2.1
       "Please enter a valid email address" rfl (by decide)⟩

/-! ## C6 -/

/-- C6: for a field whose trimmed value is non-empty, passes the pattern check (or has no
pattern) and is shorter than the rule's `minLength` `N`, `validateField` returns false
with the message `<Label> must be at least N characters`. -/
theorem validateField_too_short (upper : String → String) (input : Input)
    (rules : Rules) (rule : FieldRule) (nodes : Nodes) (N : Int)
    (h : rules input.name = some rule) (hv : jsTrim input.value ≠ "")
    (hpat : ∀ p, rule.pattern = some p → p (jsTrim input.value) = true)
    (hN : rule.minLength = some N) (hlt : (jsLength (jsTrim input.value) : Int) < N) :
    (validateField upper input rules nodes).isValid = false ∧
    (validateField upper input rules nodes).errorMessage =
      getFieldLabel upper input ++ " must be at least " ++ numberToString N ++
        " characters" := by
  have hpf : patternFails rule (jsTrim input.value) = false := by
    unfold patternFails
    cases hp : rule.pattern with
    | none => rfl
    | some p => simp [hpat p hp]
  have hN0 : N ≠ 0 := by
    intro h0
    rw [h0] at hlt
    omega
  have hshort : tooShort rule (jsTrim input.value) = true := by
    simp [tooShort, hN, hN0, hlt]
  rw [validateField_isValid upper input rules rule nodes h,
    validateField_errorMessage upper input rules rule nodes h,
    checks_of_nonempty upper input rule hv, hpf, hshort, hN]
  exact ⟨rfl, rfl⟩

theorem validateField_too_short_witness :
    contactRules (freshInput "message" "hello" none (some 0)).name = some messageRule ∧
    jsLength (jsTrim (freshInput "message" "hello" none (some 0)).value) = 5 ∧
    messageRule.minLength = some 10 ∧
    (validateField asciiUpperCase (freshInput "message" "hello" none (some 0))
      contactRules hiddenNodes).isValid = false ∧
    (validateField asciiUpperCase (freshInput "message" "hello" none (some 0))
      contactRules hiddenNodes).errorMessage = "Message must be at least 10 characters" :=
  ⟨rfl, by decide, rfl,
   validateField_too_short asciiUpperCase (freshInput "message" "hello" none (some 0))
     contactRules messageRule hiddenNodes 10 rfl (by decide)
     (fun p hp => by simp [messageRule] at hp) rfl (by decide)⟩

/-! ## C7 -/

/-- C7 as stated fails: under the rule `{ required: false, maxLength: 0 }` the value
`"abc"` is non-empty, has no pattern or `minLength` to pass and is longer than the bound `0`,
yet `validateField` returns true and sets no message. -/
theorem validateField_too_long_counterexample :
    zeroMaxRules (freshInput "code" "abc" none none).name = some zeroMaxRule ∧
    zeroMaxRule.maxLength = some 0 ∧
    (0 : Int) < (jsLength (jsTrim (freshInput "code" "abc" none none).value) : Int) ∧
    (validateField asciiUpperCase (freshInput "code" "abc" none none) zeroMaxRules
      hiddenNodes).isValid = true ∧
    (validateField asciiUpperCase (freshInput "code" "abc" none none) zeroMaxRules
      hiddenNodes).errorMessage = "" :=
  ⟨rfl, rfl, by decide, by decide, by decide⟩

/-- C7 (amended): for a field whose trimmed value is non-empty, passes the pattern and
`minLength` checks and is longer than the rule's `maxLength` `N`, where `N` is not `0`,
`validateField` returns false with the message `<Label> must not exceed N characters`. -/
theorem validateField_too_long (upper : String → String) (input : Input)
    (rules : Rules) (rule : FieldRule) (nodes : Nodes) (N : Int)
    (h : rules input.name = some rule) (hv : jsTrim input.value ≠ "")
    (hpat : ∀ p, rule.pattern = some p → p (jsTrim input.value) = true)
    (hmin : ∀ n : Int, rule.minLength = some n → n ≤ (jsLength (jsTrim input.value) : Int))
    (hN : rule.maxLength = some N) (hN0 : N ≠ 0)
    (hgt : N < (jsLength (jsTrim input.value) : Int)) :
    (validateField upper input rules nodes).isValid = false ∧
    (validateField upper input rules nodes).errorMessage =
      getFieldLabel upper input ++ " must not exceed " ++ numberToString N ++
        " characters" := by
  have hpf : patternFails rule (jsTrim input.value) = false := by
    unfold patternFails
    cases hp : rule.pattern with
    | none => rfl
    | some p => simp [hpat p hp]
  have hshort : tooShort rule (jsTrim input.value) = false := by
    unfold tooShort
    cases hm : rule.minLength with
    | none => rfl
    | some n =>
      have := hmin n hm
      simp only [Bool.and_eq_false_imp, bne_iff_ne, ne_eq, decide_eq_false_iff_not, not_lt]
      exact fun _ => this
  have hlong : tooLong rule (jsTrim input.value) = true := by
    simp [tooLong, hN, hN0, hgt]
  rw [validateField_isValid upper input rules rule nodes h,
    validateField_errorMessage upper input rules rule nodes h,
    checks_of_nonempty upper input rule hv, hpf, hshort, hlong, hN]
  exact ⟨rfl, rfl⟩

theorem validateField_too_long_witness :
    crossedRules (freshInput "note" "hello world!" none (some 0)).name = some crossedRule ∧
    crossedRule.maxLength = some 3 ∧
    jsLength (jsTrim (freshInput "note" "hello world!" none (some 0)).value) = 12 ∧
    (validateField asciiUpperCase (freshInput "note" "hello world!" none (some 0))
      crossedRules hiddenNodes).isValid = false ∧
    (validateField asciiUpperCase (freshInput "note" "hello world!" none (some 0))
      crossedRules hiddenNodes).errorMessage = "Note must not exceed 3 characters" :=
  ⟨rfl, rfl, by decide,
   validateField_too_long asciiUpperCase (freshInput "note" "hello world!" none (some 0))
     crossedRules crossedRule hiddenNodes 3 rfl (by decide)
     (fun p hp => by simp [crossedRule] at hp)
     (fun n hn => by
        have h10 : n = 10 := by
          simp only [crossedRule, Option.some.injEq] at hn
          exact hn.symm
        rw [h10]
        decide)
     rfl (by decide) (by decide)⟩

/-! ## C8 -/

theorem validateField_of_rule (upper : String → String) (input : Input) (rules : Rules)
    (rule : FieldRule) (nodes : Nodes) (h : rules input.name = some rule) :
    validateField upper input rules nodes =
      if (validateFieldChecks upper input rule).1 then
        { isValid := true, errorMessage := (validateFieldChecks upper input rule).2,
          input := (clearFieldError input nodes).1, nodes := (clearFieldError input nodes).2 }
      else
        { isValid := false, errorMessage := (validateFieldChecks upper input rule).2,
          input := (showFieldError input (validateFieldChecks upper input rule).2 nodes).1,
          nodes := (showFieldError input (validateFieldChecks upper input rule).2 nodes).2 } := by
  unfold validateField
  rw [h]
  dsimp only
  rcases hc : validateFieldChecks upper input rule with ⟨v, m⟩
  cases v <;> rfl

theorem validateField_of_no_rule (upper : String → String) (input : Input) (rules : Rules)
    (nodes : Nodes) (h : rules input.name = none) :
    validateField upper input rules nodes =
      { isValid := true, errorMessage := "", input := input, nodes := nodes } := by
  unfold validateField
  rw [h]

theorem validateField_isValid_nodes (upper : String → String) (input : Input) (rules : Rules)
    (n1 n2 : Nodes) :
    (validateField upper input rules n1).isValid =
      (validateField upper input rules n2).isValid := by
  cases h : rules input.name with
  | none => rw [validateField_of_no_rule _ _ _ _ h, validateField_of_no_rule _ _ _ _ h]
  | some rule =>
    rw [validateField_isValid _ _ _ rule _ h, validateField_isValid _ _ _ rule _ h]

theorem validateField_errorMessage_nodes (upper : String → String) (input : Input)
    (rules : Rules) (n1 n2 : Nodes) :
    (validateField upper input rules n1).errorMessage =
      (validateField upper input rules n2).errorMessage := by
  cases h : rules input.name with
  | none => rw [validateField_of_no_rule _ _ _ _ h, validateField_of_no_rule _ _ _ _ h]
  | some rule =>
    rw [validateField_errorMessage _ _ _ rule _ h, validateField_errorMessage _ _ _ rule _ h]

theorem validateField_input_nodes (upper : String → String) (input : Input) (rules : Rules)
    (n1 n2 : Nodes) :
    (validateField upper input rules n1).input = (validateField upper input rules n2).input := by
  cases h : rules input.name with
  | none => rw [validateField_of_no_rule _ _ _ _ h, validateField_of_no_rule _ _ _ _ h]
  | some rule =>
    rw [validateField_of_rule _ _ _ rule _ h, validateField_of_rule _ _ _ rule _ h]
    split <;> rfl

theorem validateField_invalid_marks (upper : String → String) (input : Input) (rules : Rules)
    (nodes : Nodes) (hinv : (validateField upper input rules nodes).isValid = false) :
    "error" ∈ (validateField upper input rules nodes).input.classList ∧
    (validateField upper input rules nodes).input.borderColor = "#ef4444" := by
  cases h : rules input.name with
  | none => rw [validateField_of_no_rule _ _ _ _ h] at hinv; cases hinv
  | some rule =>
    rw [validateField_of_rule _ _ _ rule _ h] at hinv ⊢
    split at hinv
    · cases hinv
    · rename_i hc
      rw [if_neg hc]
      refine ⟨?_, rfl⟩
      simp only [showFieldError, clearFieldError, classListAdd]
      split
      · assumption
      · simp

theorem validateField_nodes_other (upper : String → String) (input : Input) (rules : Rules)
    (nodes : Nodes) (k : Nat) (hk : input.errorElement ≠ some k) :
    (validateField upper input rules nodes).nodes k = nodes k := by
  cases h : rules input.name with
  | none => rw [validateField_of_no_rule _ _ _ _ h]
  | some rule =>
    rw [validateField_of_rule _ _ _ rule _ h]
    cases he : input.errorElement with
    | none => split <;> simp [showFieldError, clearFieldError, he]
    | some j =>
      have hjk : k ≠ j := fun hjk => hk (by rw [he, hjk])
      split <;> simp [showFieldError, clearFieldError, he, setNode, hjk]

theorem validateField_nodes_self (upper : String → String) (input : Input) (rules : Rules)
    (nodes : Nodes) (k : Nat) (hk : input.errorElement = some k)
    (hinv : (validateField upper input rules nodes).isValid = false) :
    (validateField upper input rules nodes).nodes k =
      { textContent := (validateField upper input rules nodes).errorMessage,
        display := "block" } := by
  cases h : rules input.name with
  | none => rw [validateField_of_no_rule _ _ _ _ h] at hinv; cases hinv
  | some rule =>
    rw [validateField_of_rule _ _ _ rule _ h] at hinv ⊢
    split at hinv
    · cases hinv
    · rename_i hc
      rw [if_neg hc]
      simp [showFieldError, clearFieldError, hk, setNode]

theorem foldl_validateFormStep (upper : String → String) (rules : Rules) (nodes0 : Nodes)
    (inputs : List Input) (b : Bool) (out : List Input) (nodes : Nodes) :
    inputs.foldl (validateFormStep upper rules) (b, out, nodes) =
      (b && inputs.all (fun input => (validateField upper input rules nodes0).isValid),
       out ++ inputs.map (fun input => (validateField upper input rules nodes0).input),
       nodesAfter upper rules nodes inputs) := by
  induction inputs generalizing b out nodes with
  | nil => simp [nodesAfter]
  | cons input rest ih =>
    rw [List.foldl_cons]
    have hstep : validateFormStep upper rules (b, out, nodes) input =
        ((if !(validateField upper input rules nodes).isValid then false else b),
         out ++ [(validateField upper input rules nodes).input],
         (validateField upper input rules nodes).nodes) := rfl
    rw [hstep, ih]
    rw [validateField_isValid_nodes upper input rules nodes nodes0,
      validateField_input_nodes upper input rules nodes nodes0]
    simp only [List.all_cons, List.map_cons, nodesAfter, List.append_assoc,
      List.singleton_append]
    cases (validateField upper input rules nodes0).isValid <;> cases b <;> simp

theorem nodesAfter_untouched (upper : String → String) (rules : Rules) (k : Nat)
    (inputs : List Input) (nodes : Nodes)
    (h : ∀ input ∈ inputs, input.errorElement ≠ some k) :
    nodesAfter upper rules nodes inputs k = nodes k := by
  induction inputs generalizing nodes with
  | nil => rfl
  | cons input rest ih =>
    simp only [nodesAfter]
    rw [ih _ (fun i hi => h i (List.mem_cons_of_mem _ hi))]
    exact validateField_nodes_other upper input rules nodes k (h input (List.mem_cons_self _ _))

theorem nodesAfter_shows (upper : String → String) (rules : Rules) (nodes0 : Nodes)
    (inputs : List Input) (nodes : Nodes)
    (hnd : (inputs.filterMap (fun input => input.errorElement)).Nodup)
    (input : Input) (hmem : input ∈ inputs) (k : Nat) (hk : input.errorElement = some k)
    (hinv : (validateField upper input rules nodes0).isValid = false) :
    nodesAfter upper rules nodes inputs k =
      { textContent := (validateField upper input rules nodes0).errorMessage,
        display := "block" } := by
  induction inputs generalizing nodes with
  | nil => cases hmem
  | cons a rest ih =>
    simp only [nodesAfter]
    rcases List.mem_cons.1 hmem with rfl | hrest
    · rw [List.filterMap_cons, hk, List.nodup_cons] at hnd
      rw [nodesAfter_untouched]
      · rw [validateField_errorMessage_nodes upper input rules nodes0 nodes]
        apply validateField_nodes_self upper input rules nodes k hk
        rw [validateField_isValid_nodes upper input rules nodes nodes0]
        exact hinv
      · intro i hi hik
        exact hnd.1 (List.mem_filterMap.2 ⟨i, hi, hik⟩)
    · apply ih _ _ hrest
      cases ha : a.errorElement with
      | none => rw [List.filterMap_cons, ha] at hnd; exact hnd
      | some j => rw [List.filterMap_cons, ha, List.nodup_cons] at hnd; exact hnd.2

theorem nodesAfter_append (upper : String → String) (rules : Rules) (nodes : Nodes)
    (before after : List Input) :
    nodesAfter upper rules nodes (before ++ after) =
      nodesAfter upper rules (nodesAfter upper rules nodes before) after := by
  induction before generalizing nodes with
  | nil => rfl
  | cons a rest ih =>
    simp only [List.cons_append, nodesAfter]
    exact ih _

theorem nodesAfter_shows_unless_later (upper : String → String) (rules : Rules)
    (nodes0 nodes : Nodes) (before after : List Input) (input : Input) (k : Nat)
    (hk : input.errorElement = some k)
    (hlater : ∀ later ∈ after, later.errorElement ≠ some k)
    (hinv : (validateField upper input rules nodes0).isValid = false) :
    nodesAfter upper rules nodes (before ++ input :: after) k =
      { textContent := (validateField upper input rules nodes0).errorMessage,
        display := "block" } := by
  rw [nodesAfter_append]
  simp only [nodesAfter]
  rw [nodesAfter_untouched upper rules k after _ hlater,
    validateField_errorMessage_nodes upper input rules nodes0
      (nodesAfter upper rules nodes before)]
  apply validateField_nodes_self upper input rules _ k hk
  rw [validateField_isValid_nodes upper input rules _ nodes0]
  exact hinv

/-- C8 as stated fails: with an empty required `name` field and an empty optional `phone`
field under one parent (both find the same `.error-message` node), `validateForm` marks
`name` as invalid and writes its message, and then the valid `phone` field hides that
node again: the invalid field does not end up showing its error. -/
theorem validateForm_shared_node_counterexample :
    (validateField asciiUpperCase (freshInput "name" "" none (some 0)) contactRules
      hiddenNodes).isValid = false ∧
    (freshInput "name" "" none (some 0)).errorElement = some 0 ∧
    (freshInput "phone" "" none (some 0)).errorElement = some 0 ∧
    (validateForm asciiUpperCase sharedNodeInputs contactRules hiddenNodes).1 = false ∧
    ((validateForm asciiUpperCase sharedNodeInputs contactRules hiddenNodes).2.2 0).display =
      "none" :=
  ⟨by decide, rfl, rfl, by decide, by decide⟩

/-- C8 (amended): `validateForm` is exhaustive.  It returns true exactly when
`validateField` returns true for every field; every field comes out as `validateField`
leaves it, so every invalid field carries the `error` class and the red border whatever
happened to the fields before it; the node store is the one obtained by running
`validateField` over all fields in order, and the error node of an invalid field shows
that field's message unless a later field of the form has the same error node.  (The
verdict and the marks of a field do not depend on the node store, so they are stated with
the store the loop started from.) -/
theorem validateForm_exhaustive (upper : String → String) (inputs : List Input)
    (rules : Rules) (nodes : Nodes) :
    ((validateForm upper inputs rules nodes).1 = true ↔
      ∀ input ∈ inputs, (validateField upper input rules nodes).isValid = true) ∧
    (validateForm upper inputs rules nodes).2.1 =
      inputs.map (fun input => (validateField upper input rules nodes).input) ∧
    (validateForm upper inputs rules nodes).2.2 = nodesAfter upper rules nodes inputs ∧
    (∀ input ∈ inputs, (validateField upper input rules nodes).isValid = false →
      "error" ∈ (validateField upper input rules nodes).input.classList ∧
      (validateField upper input rules nodes).input.borderColor = "#ef4444") ∧
    (∀ (before after : List Input) (input : Input) (k : Nat),
      inputs = before ++ input :: after → input.errorElement = some k →
      (∀ later ∈ after, later.errorElement ≠ some k) →
      (validateField upper input rules nodes).isValid = false →
      (validateForm upper inputs rules nodes).2.2 k =
        { textContent := (validateField upper input rules nodes).errorMessage,
          display := "block" }) := by
  unfold validateForm
  rw [foldl_validateFormStep upper rules nodes inputs true [] nodes]
  refine ⟨?_, ?_, rfl, ?_, ?_⟩
  · simp [List.all_eq_true]
  · simp
  · intro input _ hinv
    exact validateField_invalid_marks upper input rules nodes hinv
  · intro before after input k hsplit hk hlater hinv
    rw [hsplit]
    exact nodesAfter_shows_unless_later upper rules nodes nodes before after input k hk
      hlater hinv

theorem validateForm_exhaustive_witness :
    (validateForm asciiUpperCase invalidInputs contactRules hiddenNodes).1 = false ∧
    invalidInputs = [freshInput "name" "" none (some 0)] ++
      freshInput "email" "not-an-email" none (some 1) ::
        [freshInput "message" "A message that is long enough." none (some 2)] ∧
    (validateField asciiUpperCase (freshInput "email" "not-an-email" none (some 1))
      contactRules hiddenNodes).isValid = false ∧
    (validateForm asciiUpperCase invalidInputs contactRules hiddenNodes).2.2 1 =
      { textContent := "Please enter a valid email address", display := "block" } :=
  ⟨by decide, rfl, by decide,
   (validateForm_exhaustive asciiUpperCase invalidInputs contactRules hiddenNodes).2.2.2.2
     [freshInput "name" "" none (some 0)]
     [freshInput "message" "A message that is long enough." none (some 2)]
     (freshInput "email" "not-an-email" none (some 1)) 1 rfl rfl (by decide) (by decide)⟩

/-! ## C9 -/

theorem handleFormSubmitStart_of_submitting (upper : String → String) (s : FormState)
    (h : s.isSubmitting = true) : handleFormSubmitStart upper s = Pass.returned s := by
  unfold handleFormSubmitStart
  rw [if_pos h]

theorem submitEvents_of_submitting (upper : String → String) (n : Nat) (s : FormState)
    (h : s.isSubmitting = true) : submitEvents upper n s = s := by
  induction n with
  | zero => rfl
  | succ n ih =>
    unfold submitEvents
    rw [handleFormSubmitStart_of_submitting upper s h]
    exact ih

theorem handleFormSubmitStart_of_valid (upper : String → String) (s : FormState) (b : Button)
    (hidle : s.isSubmitting = false)
    (hvalid : (validateForm upper s.inputs s.rules s.nodes).1 = true)
    (hb : s.submitButton = some b) :
    handleFormSubmitStart upper s =
      Pass.awaiting
        { s with inputs := (validateForm upper s.inputs s.rules s.nodes).2.1,
                 nodes := (validateForm upper s.inputs s.rules s.nodes).2.2,
                 isSubmitting := true,
                 submitButton := some (showLoadingState b),
                 messageElement := s.messageElement.map fun m => { m with display := "none" },
                 submitCalls := s.submitCalls + 1 }
        b.innerHTML := by
  unfold handleFormSubmitStart
  simp only [hidle, hvalid, hb, Bool.false_eq_true, if_false, Bool.not_true, clearFormMessage]

theorem handleFormSubmitStart_of_invalid (upper : String → String) (s : FormState)
    (hidle : s.isSubmitting = false)
    (hinvalid : (validateForm upper s.inputs s.rules s.nodes).1 = false) :
    handleFormSubmitStart upper s =
      Pass.returned (showFormMessage
        { s with inputs := (validateForm upper s.inputs s.rules s.nodes).2.1,
                 nodes := (validateForm upper s.inputs s.rules s.nodes).2.2 }
        "Please correct the errors above." "error") := by
  unfold handleFormSubmitStart
  simp only [hidle, hinvalid, Bool.false_eq_true, if_false, Bool.not_false, if_true]

theorem handleFormSubmitStart_of_no_button (upper : String → String) (s : FormState)
    (hidle : s.isSubmitting = false)
    (hvalid : (validateForm upper s.inputs s.rules s.nodes).1 = true)
    (hb : s.submitButton = none) :
    handleFormSubmitStart upper s =
      Pass.threw
        { s with inputs := (validateForm upper s.inputs s.rules s.nodes).2.1,
                 nodes := (validateForm upper s.inputs s.rules s.nodes).2.2,
                 isSubmitting := true } := by
  unfold handleFormSubmitStart
  simp only [hidle, hvalid, hb, Bool.false_eq_true, if_false, Bool.not_true]

/-- C9 fails on the code: five submit events in a row on a correctly filled, idle contact
form that has no `button[type="submit"]` invoke the submit operation zero times, not once:
the first pass sets `isSubmitting` and then throws on `submitButton.innerHTML`, before
`this.submitForm` is reached, and the guard swallows the four events that follow. -/
theorem submitEvents_without_button_never_submits :
    (contactForm validInputs none).isSubmitting = false ∧
    (validateForm asciiUpperCase validInputs contactRules hiddenNodes).1 = true ∧
    (submitEvents asciiUpperCase 5 (contactForm validInputs none)).submitCalls = 0 ∧
    (submitEvents asciiUpperCase 5 (contactForm validInputs none)).isSubmitting = true :=
  ⟨rfl, by decide, by decide, by decide⟩

/-- The guard of `handleFormSubmit` where the form has its submit button: while
`isSubmitting` is true an invocation returns at once, leaving the whole state (the count of
submit operations included) unchanged; consequently any positive number of submit events
fired in a row on an idle, valid form that has a submit button, before the first submit
operation settles, invoke the submit operation exactly once. -/
theorem handleFormSubmit_guard (upper : String → String) (s : FormState) :
    (s.isSubmitting = true → handleFormSubmitStart upper s = Pass.returned s) ∧
    (∀ (b : Button) (n : Nat), s.isSubmitting = false →
      (validateForm upper s.inputs s.rules s.nodes).1 = true →
      s.submitButton = some b → 0 < n →
      (submitEvents upper n s).submitCalls = s.submitCalls + 1 ∧
      (submitEvents upper n s).isSubmitting = true) := by
  refine ⟨handleFormSubmitStart_of_submitting upper s, ?_⟩
  intro b n hidle hvalid hb hn
  obtain ⟨m, rfl⟩ : ∃ m, n = m + 1 := ⟨n - 1, by omega⟩
  unfold submitEvents
  rw [handleFormSubmitStart_of_valid upper s b hidle hvalid hb]
  rw [submitEvents_of_submitting upper m _ rfl]
  exact ⟨rfl, rfl⟩

theorem handleFormSubmit_guard_witness :
    (contactForm validInputs (some sendButton)).isSubmitting = false ∧
    (validateForm asciiUpperCase (contactForm validInputs (some sendButton)).inputs
      (contactForm validInputs (some sendButton)).rules
      (contactForm validInputs (some sendButton)).nodes).1 = true ∧
    (submitEvents asciiUpperCase 5 (contactForm validInputs (some sendButton))).submitCalls = 1 :=
  ⟨rfl, by decide,
   ((handleFormSubmit_guard asciiUpperCase (contactForm validInputs (some sendButton))).2
     sendButton 5 rfl (by decide) rfl (by decide)).1⟩

/-! ## C10 -/

theorem handleFormSubmitResume_state (s : FormState) (originalButtonText : String)
    (outcome : SubmitOutcome) :
    (handleFormSubmitResume s originalButtonText outcome).state.isSubmitting = false ∧
    (handleFormSubmitResume s originalButtonText outcome).state.submitButton =
      s.submitButton.map fun b => hideLoadingState b originalButtonText := by
  cases outcome <;> exact ⟨rfl, rfl⟩

/-- C10: whenever a pass of `handleFormSubmit` got as far as invoking the submit operation
(it reached the `await`), the form had a submit button, and however the operation settles
(fulfilled, rejected with a message, rejected with `null`/`undefined`) the pass ends with
`isSubmitting = false`, the submit button enabled and its `innerHTML` equal to what it was
before the pass began.  The same holds when the pass resumes from any later state `s2` in
which the button is still present. -/
theorem handleFormSubmit_recovers (upper : String → String) (s s1 : FormState)
    (originalButtonText : String) (outcome : SubmitOutcome)
    (hstart : handleFormSubmitStart upper s = Pass.awaiting s1 originalButtonText) :
    handleFormSubmit upper s outcome =
      handleFormSubmitResume s1 originalButtonText outcome ∧
    (handleFormSubmit upper s outcome).state.isSubmitting = false ∧
    ∃ b, s.submitButton = some b ∧
      (∃ b1, (handleFormSubmit upper s outcome).state.submitButton = some b1 ∧
        b1.disabled = false ∧ b1.innerHTML = b.innerHTML) ∧
      (∀ (s2 : FormState) (b2 : Button), s2.submitButton = some b2 →
        (handleFormSubmitResume s2 originalButtonText outcome).state.isSubmitting = false ∧
        ∃ b3, (handleFormSubmitResume s2 originalButtonText outcome).state.submitButton =
            some b3 ∧ b3.disabled = false ∧ b3.innerHTML = b.innerHTML) := by
  have hpass : handleFormSubmit upper s outcome =
      handleFormSubmitResume s1 originalButtonText outcome := by
    unfold handleFormSubmit
    rw [hstart]
  refine ⟨hpass, ?_, ?_⟩
  · rw [hpass]
    exact (handleFormSubmitResume_state s1 originalButtonText outcome).1
  · cases hsub : s.isSubmitting with
    | true =>
      rw [handleFormSubmitStart_of_submitting upper s hsub] at hstart
      cases hstart
    | false =>
      cases hv : (validateForm upper s.inputs s.rules s.nodes).1 with
      | false =>
        rw [handleFormSubmitStart_of_invalid upper s hsub hv] at hstart
        cases hstart
      | true =>
        cases hb : s.submitButton with
        | none =>
          rw [handleFormSubmitStart_of_no_button upper s hsub hv hb] at hstart
          cases hstart
        | some button =>
          rw [handleFormSubmitStart_of_valid upper s button hsub hv hb] at hstart
          injection hstart with hs1 horig
          refine ⟨button, rfl, ?_, ?_⟩
          · refine ⟨hideLoadingState (showLoadingState button) originalButtonText,
              ?_, rfl, horig.symm⟩
            rw [hpass, (handleFormSubmitResume_state s1 originalButtonText outcome).2, ← hs1]
            rfl
          · intro s2 b2 hb2
            refine ⟨(handleFormSubmitResume_state s2 originalButtonText outcome).1,
              hideLoadingState b2 originalButtonText, ?_, rfl, horig.symm⟩
            rw [(handleFormSubmitResume_state s2 originalButtonText outcome).2, hb2]
            rfl

theorem handleFormSubmit_recovers_witness :
    handleFormSubmitStart asciiUpperCase (contactForm validInputs (some sendButton)) =
      Pass.awaiting
        (handleFormSubmitStart asciiUpperCase (contactForm validInputs (some sendButton))).state
        "Send Message" ∧
    (handleFormSubmit asciiUpperCase (contactForm validInputs (some sendButton))
      (SubmitOutcome.rejected "X")).state.isSubmitting = false ∧
    (handleFormSubmit asciiUpperCase (contactForm validInputs (some sendButton))
      (SubmitOutcome.rejected "X")).state.submitButton =
        some { disabled := false, innerHTML := "Send Message", classList := ["btn"] } :=
  ⟨by
    rw [handleFormSubmitStart_of_valid asciiUpperCase (contactForm validInputs (some sendButton))
      sendButton rfl (by decide) rfl]
    rfl,
   (handleFormSubmit_recovers asciiUpperCase (contactForm validInputs (some sendButton))
      (handleFormSubmitStart asciiUpperCase (contactForm validInputs (some sendButton))).state
      "Send Message" (SubmitOutcome.rejected "X")
      (by
        rw [handleFormSubmitStart_of_valid asciiUpperCase
          (contactForm validInputs (some sendButton)) sendButton rfl (by decide) rfl]
        rfl)).2.1,
   by decide⟩

/-! ## Shared facts about one handling pass -/

theorem validateForm_fst (upper : String → String) (inputs : List Input) (rules : Rules)
    (nodes : Nodes) :
    (validateForm upper inputs rules nodes).1 =
      inputs.all (fun input => (validateField upper input rules nodes).isValid) := by
  unfold validateForm
  rw [foldl_validateFormStep upper rules nodes inputs true [] nodes]
  simp

theorem handleFormSubmitStart_awaiting (upper : String → String) (s s1 : FormState)
    (originalButtonText : String)
    (hstart : handleFormSubmitStart upper s = Pass.awaiting s1 originalButtonText) :
    ∃ b, s.isSubmitting = false ∧
      (validateForm upper s.inputs s.rules s.nodes).1 = true ∧
      s.submitButton = some b ∧ originalButtonText = b.innerHTML ∧
      s1 = { s with inputs := (validateForm upper s.inputs s.rules s.nodes).2.1,
                    nodes := (validateForm upper s.inputs s.rules s.nodes).2.2,
                    isSubmitting := true,
                    submitButton := some (showLoadingState b),
                    messageElement := s.messageElement.map fun m => { m with display := "none" },
                    submitCalls := s.submitCalls + 1 } := by
  cases hsub : s.isSubmitting with
  | true =>
    rw [handleFormSubmitStart_of_submitting upper s hsub] at hstart
    cases hstart
  | false =>
    cases hv : (validateForm upper s.inputs s.rules s.nodes).1 with
    | false =>
      rw [handleFormSubmitStart_of_invalid upper s hsub hv] at hstart
      cases hstart
    | true =>
      cases hb : s.submitButton with
      | none =>
        rw [handleFormSubmitStart_of_no_button upper s hsub hv hb] at hstart
        cases hstart
      | some button =>
        rw [handleFormSubmitStart_of_valid upper s button hsub hv hb] at hstart
        injection hstart with hs1 horig
        exact ⟨button, rfl, rfl, rfl, horig.symm, hs1.symm⟩

theorem handleFormSubmit_of_awaiting (upper : String → String) (s s1 : FormState)
    (originalButtonText : String) (outcome : SubmitOutcome)
    (hstart : handleFormSubmitStart upper s = Pass.awaiting s1 originalButtonText) :
    handleFormSubmit upper s outcome =
      handleFormSubmitResume s1 originalButtonText outcome := by
  unfold handleFormSubmit
  rw [hstart]

theorem handleFormSubmit_of_no_button (upper : String → String) (s : FormState)
    (outcome : SubmitOutcome) (hidle : s.isSubmitting = false)
    (hvalid : (validateForm upper s.inputs s.rules s.nodes).1 = true)
    (hb : s.submitButton = none) :
    handleFormSubmit upper s outcome =
      Pass.threw
        { s with inputs := (validateForm upper s.inputs s.rules s.nodes).2.1,
                 nodes := (validateForm upper s.inputs s.rules s.nodes).2.2,
                 isSubmitting := true } := by
  unfold handleFormSubmit
  rw [handleFormSubmitStart_of_no_button upper s hidle hvalid hb]

theorem handleFormSubmit_of_invalid (upper : String → String) (s : FormState)
    (outcome : SubmitOutcome) (hidle : s.isSubmitting = false)
    (hinvalid : (validateForm upper s.inputs s.rules s.nodes).1 = false) :
    handleFormSubmit upper s outcome =
      Pass.returned (showFormMessage
        { s with inputs := (validateForm upper s.inputs s.rules s.nodes).2.1,
                 nodes := (validateForm upper s.inputs s.rules s.nodes).2.2 }
        "Please correct the errors above." "error") := by
  unfold handleFormSubmit
  rw [handleFormSubmitStart_of_invalid upper s hidle hinvalid]

/-! ## C11 -/

/-- C11 fails on the code.  On a correctly filled, idle contact form without a
`button[type="submit"]`, one pass of `handleFormSubmit` ends with an uncaught exception
whatever the submit operation would have done (it is never invoked), and leaves
`isSubmitting = true`; every later submit event is then swallowed by the guard, so the
registration stays in the submitting state. -/
theorem handleFormSubmit_without_button_stuck (outcome : SubmitOutcome) :
    (contactForm validInputs none).isSubmitting = false ∧
    (validateForm asciiUpperCase validInputs contactRules hiddenNodes).1 = true ∧
    ∃ s1, handleFormSubmit asciiUpperCase (contactForm validInputs none) outcome =
        Pass.threw s1 ∧
      s1.isSubmitting = true ∧ s1.submitCalls = 0 ∧
      ∀ n, (submitEvents asciiUpperCase n s1).isSubmitting = true ∧
        (submitEvents asciiUpperCase n s1).submitCalls = 0 := by
  refine ⟨rfl, by decide, _, handleFormSubmit_of_no_button asciiUpperCase
    (contactForm validInputs none) outcome rfl (by decide) rfl, rfl, rfl, fun n => ?_⟩
  rw [submitEvents_of_submitting asciiUpperCase n _ rfl]
  exact ⟨rfl, rfl⟩

/-! ## C12 -/

/-- C12: on an idle form with at least one invalid field, a pass of `handleFormSubmit`
returns without invoking the submit operation; the banner (the form's `.form-message`
node) shows `Please correct the errors above.` as an error banner, the submit button is
untouched, nothing is scheduled and the registration is idle. -/
theorem handleFormSubmit_invalid (upper : String → String) (s : FormState)
    (outcome : SubmitOutcome) (hidle : s.isSubmitting = false)
    (hinvalid : ∃ input ∈ s.inputs, (validateField upper input s.rules s.nodes).isValid = false) :
    ∃ s1, handleFormSubmit upper s outcome = Pass.returned s1 ∧
      s1.submitCalls = s.submitCalls ∧
      s1.messageElement = s.messageElement.map (fun _ =>
        { textContent := "Please correct the errors above.",
          className := "form-message error", display := "block" }) ∧
      s1.submitButton = s.submitButton ∧
      s1.timers = s.timers ∧
      s1.isSubmitting = false := by
  have hv : (validateForm upper s.inputs s.rules s.nodes).1 = false := by
    rw [validateForm_fst]
    obtain ⟨input, hmem, hinv⟩ := hinvalid
    rw [Bool.eq_false_iff]
    intro hall
    rw [List.all_eq_true] at hall
    rw [hall input hmem] at hinv
    cases hinv
  refine ⟨_, handleFormSubmit_of_invalid upper s outcome hidle hv, rfl, ?_, rfl, rfl, hidle⟩
  cases s.messageElement <;> rfl

theorem handleFormSubmit_invalid_witness :
    (contactForm invalidInputs (some sendButton)).isSubmitting = false ∧
    (∃ input ∈ (contactForm invalidInputs (some sendButton)).inputs,
      (validateField asciiUpperCase input contactRules hiddenNodes).isValid = false) ∧
    ∃ s1, handleFormSubmit asciiUpperCase (contactForm invalidInputs (some sendButton))
        SubmitOutcome.resolved = Pass.returned s1 ∧
      s1.submitCalls = 0 ∧
      s1.messageElement = some { textContent := "Please correct the errors above.",
                                 className := "form-message error", display := "block" } ∧
      s1.submitButton = some sendButton ∧ s1.isSubmitting = false :=
  ⟨rfl, ⟨freshInput "name" "" none (some 0), by decide, by decide⟩,
   (handleFormSubmit_invalid asciiUpperCase (contactForm invalidInputs (some sendButton))
      SubmitOutcome.resolved rfl
      ⟨freshInput "name" "" none (some 0), by decide, by decide⟩).imp
    (fun _ h => ⟨h.1, h.2.1, h.2.2.1, h.2.2.2.1, h.2.2.2.2.2⟩)⟩

/-! ## C13 -/

theorem map_const_map_display (m : Option MessageElement) (e : MessageElement) :
    (m.map fun x => { x with display := "none" }).map (fun _ => e) = m.map (fun _ => e) := by
  cases m <;> rfl

/-- C13: whenever a pass of `handleFormSubmit` invoked the submit operation and the
operation rejects with an error whose message is `X`, the pass returns normally, the banner
shows exactly `X` with class `form-message error`, one auto-hide is scheduled after
10000 ms, and `isSubmitting` is false again. -/
theorem handleFormSubmit_rejected (upper : String → String) (s s1 : FormState)
    (originalButtonText X : String)
    (hstart : handleFormSubmitStart upper s = Pass.awaiting s1 originalButtonText) :
    ∃ s2, handleFormSubmit upper s (SubmitOutcome.rejected X) = Pass.returned s2 ∧
      s2.messageElement = s.messageElement.map (fun _ =>
        { textContent := X, className := "form-message error", display := "block" }) ∧
      s2.timers = s.timers ++ [{ delay := 10000, action := TimerAction.clearFormMessage }] ∧
      s2.submitCalls = s.submitCalls + 1 ∧
      s2.isSubmitting = false := by
  obtain ⟨b, _, _, _, _, hs1⟩ := handleFormSubmitStart_awaiting upper s s1 originalButtonText hstart
  refine ⟨_, handleFormSubmit_of_awaiting upper s s1 originalButtonText _ hstart, ?_, ?_, ?_, rfl⟩
  · rw [hs1]
    exact map_const_map_display s.messageElement _
  · rw [hs1]
    rfl
  · rw [hs1]
    rfl

theorem handleFormSubmit_rejected_witness :
    handleFormSubmitStart asciiUpperCase (contactForm validInputs (some sendButton)) =
      Pass.awaiting
        (handleFormSubmitStart asciiUpperCase (contactForm validInputs (some sendButton))).state
        "Send Message" ∧
    ∃ s2, handleFormSubmit asciiUpperCase (contactForm validInputs (some sendButton))
        (SubmitOutcome.rejected "X") = Pass.returned s2 ∧
      s2.messageElement =
        some { textContent := "X", className := "form-message error", display := "block" } ∧
      s2.isSubmitting = false :=
  ⟨by
    rw [handleFormSubmitStart_of_valid asciiUpperCase (contactForm validInputs (some sendButton))
      sendButton rfl (by decide) rfl]
    rfl,
   (handleFormSubmit_rejected asciiUpperCase (contactForm validInputs (some sendButton))
      (handleFormSubmitStart asciiUpperCase (contactForm validInputs (some sendButton))).state
      "Send Message" "X"
      (by
        rw [handleFormSubmitStart_of_valid asciiUpperCase
          (contactForm validInputs (some sendButton)) sendButton rfl (by decide) rfl]
        rfl)).imp
    (fun _ h => ⟨h.1, h.2.1, h.2.2.2.2⟩)⟩

/-! ## C14 -/

/-- C14: whenever a pass of `handleFormSubmit` invoked the submit operation and the
operation succeeds, the banner is shown with class `form-message success` and a text that
depends on the form kind only: the contact text for `contact`, the newsletter text for
`newsletter`, the default text for every other kind; the three texts are pairwise
distinct. -/
theorem handleFormSubmit_success_banner (upper : String → String) (s s1 : FormState)
    (originalButtonText : String)
    (hstart : handleFormSubmitStart upper s = Pass.awaiting s1 originalButtonText) :
    (∃ s2 text, handleFormSubmit upper s SubmitOutcome.resolved = Pass.returned s2 ∧
      s2.messageElement = s.messageElement.map (fun _ =>
        { textContent := text, className := "form-message success", display := "block" }) ∧
      (s.type = "contact" →
        text = "Thank you for your message! We will get back to you within 24 hours.") ∧
      (s.type = "newsletter" → text = "Successfully subscribed to our newsletter!") ∧
      (s.type ≠ "contact" → s.type ≠ "newsletter" → text = "Form submitted successfully!")) ∧
    "Thank you for your message! We will get back to you within 24 hours." ≠
      "Successfully subscribed to our newsletter!" ∧
    "Thank you for your message! We will get back to you within 24 hours." ≠
      "Form submitted successfully!" ∧
    "Successfully subscribed to our newsletter!" ≠ "Form submitted successfully!" := by
  obtain ⟨b, _, _, _, _, hs1⟩ := handleFormSubmitStart_awaiting upper s s1 originalButtonText hstart
  refine ⟨⟨_,
    (if s.type = "contact" then
      "Thank you for your message! We will get back to you within 24 hours."
    else if s.type = "newsletter" then "Successfully subscribed to our newsletter!"
    else "Form submitted successfully!"),
    handleFormSubmit_of_awaiting upper s s1 originalButtonText _ hstart,
    ?_, ?_, ?_, ?_⟩, by decide, by decide, by decide⟩
  · rw [hs1]
    exact map_const_map_display s.messageElement _
  · intro ht
    rw [if_pos ht]
  · intro ht
    rw [ht]
    decide
  · intro h1 h2
    rw [if_neg h1, if_neg h2]

theorem handleFormSubmit_success_banner_witness :
    handleFormSubmitStart asciiUpperCase (contactForm validInputs (some sendButton)) =
      Pass.awaiting
        (handleFormSubmitStart asciiUpperCase (contactForm validInputs (some sendButton))).state
        "Send Message" ∧
    (handleFormSubmit asciiUpperCase (contactForm validInputs (some sendButton))
      SubmitOutcome.resolved).state.messageElement =
        some { textContent := "Thank you for your message! We will get back to you within 24 hours.",
               className := "form-message success", display := "block" } ∧
    "Successfully subscribed to our newsletter!" ≠ "Form submitted successfully!" :=
  ⟨by
    rw [handleFormSubmitStart_of_valid asciiUpperCase (contactForm validInputs (some sendButton))
      sendButton rfl (by decide) rfl]
    rfl,
   by decide,
   (handleFormSubmit_success_banner asciiUpperCase (contactForm validInputs (some sendButton))
      (handleFormSubmitStart asciiUpperCase (contactForm validInputs (some sendButton))).state
      "Send Message"
      (by
        rw [handleFormSubmitStart_of_valid asciiUpperCase
          (contactForm validInputs (some sendButton)) sendButton rfl (by decide) rfl]
        rfl)).2.2.2⟩

/-! ## C16 -/

theorem classListRemove_idem (cl : List String) (token : String) :
    classListRemove (classListRemove cl token) token = classListRemove cl token := by
  unfold classListRemove
  rw [List.filter_filter]
  simp

theorem not_mem_classListRemove (cl : List String) (token : String) :
    token ∉ classListRemove cl token := by
  unfold classListRemove
  simp

/-- C16: `clearFieldError` is idempotent.  Applying it a second time changes neither the
field nor the node store, and after one application the field has no `error` class, an
empty border colour and, when it has an error node, that node is hidden. -/
theorem clearFieldError_idempotent (input : Input) (nodes : Nodes) :
    clearFieldError (clearFieldError input nodes).1 (clearFieldError input nodes).2 =
      clearFieldError input nodes ∧
    "error" ∉ (clearFieldError input nodes).1.classList ∧
    (clearFieldError input nodes).1.borderColor = "" ∧
    (∀ k, input.errorElement = some k → ((clearFieldError input nodes).2 k).display = "none") := by
  refine ⟨?_, not_mem_classListRemove _ _, rfl, ?_⟩
  · unfold clearFieldError
    refine Prod.ext ?_ ?_
    · simp only [classListRemove_idem]
    · cases he : input.errorElement with
      | none => rfl
      | some k =>
        funext j
        simp only [setNode]
        split <;> rfl
  · intro k hk
    simp [clearFieldError, hk, setNode]

theorem clearFieldError_idempotent_witness :
    markedInput.errorElement = some 0 ∧
    (clearFieldError markedInput shownNodes).1.classList = ["field"] ∧
    ((clearFieldError markedInput shownNodes).2 0).display = "none" ∧
    clearFieldError (clearFieldError markedInput shownNodes).1
        (clearFieldError markedInput shownNodes).2 =
      clearFieldError markedInput shownNodes :=
  ⟨rfl, by decide,
   (clearFieldError_idempotent markedInput shownNodes).2.2.2 0 rfl,
   (clearFieldError_idempotent markedInput shownNodes).1⟩

/-! ## C18 -/

theorem validateField_valid_marks (upper : String → String) (input : Input) (rules : Rules)
    (rule : FieldRule) (nodes : Nodes) (h : rules input.name = some rule)
    (hval : (validateField upper input rules nodes).isValid = true) :
    "error" ∉ (validateField upper input rules nodes).input.classList ∧
    (validateField upper input rules nodes).input.borderColor = "" ∧
    (∀ k, input.errorElement = some k →
      (validateField upper input rules nodes).nodes k = { nodes k with display := "none" }) := by
  rw [validateField_of_rule _ _ _ rule _ h] at hval ⊢
  split at hval
  · rename_i hc
    rw [if_pos hc]
    refine ⟨not_mem_classListRemove _ _, rfl, fun k hk => ?_⟩
    simp [clearFieldError, hk, setNode]
  · cases hval

/-- C18: the visual side effect of `validateField` matches its result.  For a field that
has a rule: when the result is false the field has the `error` class and the border colour
`#ef4444`, and its error node (when there is one) is displayed with the failure message;
when the result is true the field has no `error` class, an empty border colour, and its
error node is hidden. -/
theorem validateField_side_effect (upper : String → String) (input : Input) (rules : Rules)
    (rule : FieldRule) (nodes : Nodes) (h : rules input.name = some rule) :
    ((validateField upper input rules nodes).isValid = false →
      "error" ∈ (validateField upper input rules nodes).input.classList ∧
      (validateField upper input rules nodes).input.borderColor = "#ef4444" ∧
      ∀ k, input.errorElement = some k →
        (validateField upper input rules nodes).nodes k =
          { textContent := (validateField upper input rules nodes).errorMessage,
            display := "block" }) ∧
    ((validateField upper input rules nodes).isValid = true →
      "error" ∉ (validateField upper input rules nodes).input.classList ∧
      (validateField upper input rules nodes).input.borderColor = "" ∧
      ∀ k, input.errorElement = some k →
        ((validateField upper input rules nodes).nodes k).display = "none") := by
  refine ⟨fun hinv => ?_, fun hval => ?_⟩
  · exact ⟨(validateField_invalid_marks upper input rules nodes hinv).1,
      (validateField_invalid_marks upper input rules nodes hinv).2,
      fun k hk => validateField_nodes_self upper input rules nodes k hk hinv⟩
  · obtain ⟨h1, h2, h3⟩ := validateField_valid_marks upper input rules rule nodes h hval
    refine ⟨h1, h2, fun k hk => ?_⟩
    rw [h3 k hk]

theorem validateField_side_effect_witness :
    contactRules (freshInput "email" "not-an-email" none (some 1)).name = some emailRule ∧
    (validateField asciiUpperCase (freshInput "email" "not-an-email" none (some 1))
      contactRules hiddenNodes).isValid = false ∧
    (validateField asciiUpperCase (freshInput "email" "not-an-email" none (some 1))
      contactRules hiddenNodes).input.classList = ["error"] ∧
    (validateField asciiUpperCase (freshInput "email" "not-an-email" none (some 1))
      contactRules hiddenNodes).nodes 1 =
        { textContent := "Please enter a valid email address", display := "block" } :=
  ⟨rfl, by decide, by decide,
   ((validateField_side_effect asciiUpperCase (freshInput "email" "not-an-email" none (some 1))
      contactRules emailRule hiddenNodes rfl).1 (by decide)).2.2 1 rfl⟩

/-! ## C19 -/

/-- Where the lookup `rules[fieldName]` is `undefined`, `validateField` returns true
whatever the value is and leaves the field and the node store as they were; removing such
a field from a form does not change the result of `validateForm`. -/
theorem validateField_without_rule (upper : String → String) (input : Input) (rules : Rules)
    (nodes : Nodes) (h : rules input.name = none) :
    (validateField upper input rules nodes).isValid = true ∧
    (validateField upper input rules nodes).input = input ∧
    (validateField upper input rules nodes).nodes = nodes ∧
    (∀ value : String, (validateField upper { input with value := value } rules nodes).isValid
      = true) ∧
    (∀ before after : List Input,
      (validateForm upper (before ++ input :: after) rules nodes).1 =
        (validateForm upper (before ++ after) rules nodes).1) := by
  rw [validateField_of_no_rule upper input rules nodes h]
  refine ⟨rfl, rfl, rfl, fun value => ?_, fun before after => ?_⟩
  · rw [validateField_of_no_rule upper { input with value := value } rules nodes h]
  · rw [validateForm_fst, validateForm_fst, List.all_append, List.all_append, List.all_cons,
      validateField_of_no_rule upper input rules nodes h]
    simp

theorem validateField_without_rule_witness :
    contactRules (freshInput "website" "???" none (some 5)).name = none ∧
    (validateField asciiUpperCase (freshInput "website" "???" none (some 5)) contactRules
      hiddenNodes).isValid = true ∧
    (validateForm asciiUpperCase (validInputs ++ freshInput "website" "???" none (some 5) :: [])
      contactRules hiddenNodes).1 =
      (validateForm asciiUpperCase (validInputs ++ []) contactRules hiddenNodes).1 :=
  ⟨rfl,
   (validateField_without_rule asciiUpperCase (freshInput "website" "???" none (some 5))
      contactRules hiddenNodes rfl).1,
   (validateField_without_rule asciiUpperCase (freshInput "website" "???" none (some 5))
      contactRules hiddenNodes rfl).2.2.2.2 validInputs []⟩

/-- C19 fails on the code.  The contact rule object has no entry `constructor`, yet for a
field of that name the lookup `rules[fieldName]` finds the value inherited from
`Object.prototype`, which is truthy: `validateField` does not stop at
`if (!fieldRule) return true` but runs the checks (all skipped), returns true and calls
`clearFieldError`, so the field loses its `error` class and border colour and its error
node is hidden. -/
theorem validateField_inherited_name_clears :
    ownEntry contactEntries constructorInput.name = none ∧
    constructorInput.classList = ["error"] ∧ constructorInput.borderColor = "#ef4444" ∧
    (shownNodes 0).display = "block" ∧
    (validateField asciiUpperCase constructorInput contactRules shownNodes).isValid = true ∧
    (validateField asciiUpperCase constructorInput contactRules shownNodes).input.classList =
      [] ∧
    (validateField asciiUpperCase constructorInput contactRules shownNodes).input.borderColor =
      "" ∧
    ((validateField asciiUpperCase constructorInput contactRules shownNodes).nodes 0).display =
      "none" :=
  ⟨rfl, rfl, rfl, rfl, by decide, by decide, by decide, by decide⟩

/-! ## C20 -/

theorem getLast?_of_dropWhile {α : Type} (p : α → Bool) (l : List α) (c : α)
    (h : (l.dropWhile p).getLast? = some c) : l.getLast? = some c := by
  induction l with
  | nil => simp at h
  | cons a t ih =>
    rw [List.dropWhile_cons] at h
    split at h
    · have ht := ih h
      cases t with
      | nil => simp at ht
      | cons b u => simpa [List.getLast?_cons_cons] using ht
    · exact h

theorem trimChars_decomp (cs : List Char) :
    ∃ pre suf, cs = pre ++ trimChars cs ++ suf ∧
      pre.all isWhiteSpace = true ∧ suf.all isWhiteSpace = true := by
  refine ⟨cs.takeWhile isWhiteSpace,
    ((cs.dropWhile isWhiteSpace).reverse.takeWhile isWhiteSpace).reverse, ?_, ?_, ?_⟩
  · unfold trimChars
    rw [List.append_assoc, ← List.reverse_append, List.takeWhile_append_dropWhile,
      List.reverse_reverse, List.takeWhile_append_dropWhile]
  · exact List.all_takeWhile
  · rw [List.all_reverse]
    exact List.all_takeWhile

theorem trimChars_getLast (cs : List Char) (c : Char)
    (h : (trimChars cs).getLast? = some c) : isWhiteSpace c = false := by
  unfold trimChars at h
  rw [List.getLast?_reverse] at h
  have hd := List.head?_dropWhile_not isWhiteSpace (cs.dropWhile isWhiteSpace).reverse
  rw [h] at hd
  exact hd

theorem trimChars_head (cs : List Char) (c : Char)
    (h : (trimChars cs).head? = some c) : isWhiteSpace c = false := by
  unfold trimChars at h
  rw [List.head?_reverse] at h
  have h2 := getLast?_of_dropWhile _ _ _ h
  rw [List.getLast?_reverse] at h2
  have hd := List.head?_dropWhile_not isWhiteSpace cs
  rw [h2] at hd
  exact hd

/-- C20: `getFieldLabel`.  With a label element the result is the label text with its
(first) asterisk taken out and the surrounding white space trimmed: the text without that
asterisk is the result between two runs of white space, and the result neither starts nor
ends with white space.  Without a label the result is the field name with its first
character (`charAt(0)`, one UTF-16 unit) upper-cased and the rest unchanged; a name that
starts with a code point outside the basic plane has an unpaired surrogate as first unit,
which has no upper case, so the name comes back as it is. -/
theorem getFieldLabel_spec (upper : String → String) (input : Input) :
    (∀ text, input.label = some text →
      getFieldLabel upper input = jsTrim ⟨text.data.erase '*'⟩ ∧
      (text.data.erase '*').count '*' = text.data.count '*' - 1 ∧
      (∃ pre suf, text.data.erase '*' = pre ++ (getFieldLabel upper input).data ++ suf ∧
        pre.all isWhiteSpace = true ∧ suf.all isWhiteSpace = true) ∧
      (∀ c, (getFieldLabel upper input).data.head? = some c → isWhiteSpace c = false) ∧
      (∀ c, (getFieldLabel upper input).data.getLast? = some c → isWhiteSpace c = false)) ∧
    (input.label = none →
      (∀ c cs, input.name.data = c :: cs → c.toNat < 0x10000 →
        getFieldLabel upper input = upper (String.singleton c) ++ ⟨cs⟩) ∧
      (∀ c cs, input.name.data = c :: cs → 0x10000 ≤ c.toNat →
        getFieldLabel upper input = input.name) ∧
      (input.name = "" → getFieldLabel upper input = upper "")) := by
  refine ⟨fun text ht => ?_, fun hn => ⟨fun c cs hc hlt => ?_, fun c cs hc hge => ?_, fun he => ?_⟩⟩
  · have hg : getFieldLabel upper input = jsTrim ⟨text.data.erase '*'⟩ := by
      unfold getFieldLabel
      rw [ht]
    rw [hg]
    exact ⟨rfl, List.count_erase_self _ _, trimChars_decomp _,
      fun c hc => trimChars_head _ c hc, fun c hc => trimChars_getLast _ c hc⟩
  · unfold getFieldLabel
    rw [hn]
    simp only [hc, hlt, if_true]
  · unfold getFieldLabel
    rw [hn]
    simp only [hc]
    rw [if_neg (by omega)]
  · unfold getFieldLabel
    rw [hn, he]
    exact String.append_empty _

theorem getFieldLabel_spec_witness :
    (freshInput "fullname" "" (some "  Full Name * ") none).label = some "  Full Name * " ∧
    getFieldLabel asciiUpperCase (freshInput "fullname" "" (some "  Full Name * ") none) =
      "Full Name" ∧
    (freshInput "email" "" none none).label = none ∧
    getFieldLabel asciiUpperCase (freshInput "email" "" none none) = "Email" :=
  ⟨rfl,
   ((getFieldLabel_spec asciiUpperCase
      (freshInput "fullname" "" (some "  Full Name * ") none)).1 "  Full Name * " rfl).1.trans
     (by decide),
   rfl,
   (((getFieldLabel_spec asciiUpperCase (freshInput "email" "" none none)).2 rfl).1
      'e' ['m', 'a', 'i', 'l'] rfl (by decide)).trans (by decide)⟩

/-! ## C15 -/

theorem inputListeners_length (form : FormElement) (formData : Nat) (i : Nat)
    (types : List String) :
    (inputListeners form formData i types).length =
      2 * types.length + types.count "email" := by
  induction types generalizing i with
  | nil => rfl
  | cons type rest ih =>
    unfold inputListeners
    rw [List.length_append, List.length_append, ih, List.count_cons, List.length_cons]
    by_cases h : type = "email"
    · simp [h]
      omega
    · have h2 : (type == "email") = false := by simpa using h
      simp [h, h2]
      omega

/-- C15 as stated fails: registering the same form element a second time (here with kind
`newsletter` after kind `contact`) replaces the registration stored under its id and
attaches a second set of listeners: eight after the first call, sixteen after the second. -/
theorem registerForm_noop_counterexample :
    ((registerForm emptyValidator "contact" contactElement contactRules).get
      "contact-form").map (fun r => r.type) = some "contact" ∧
    ((registerForm (registerForm emptyValidator "contact" contactElement contactRules)
      "newsletter" contactElement newsletterRules).get "contact-form").map (fun r => r.type) =
        some "newsletter" ∧
    (registerForm emptyValidator "contact" contactElement contactRules).listeners.length = 8 ∧
    (registerForm (registerForm emptyValidator "contact" contactElement contactRules)
      "newsletter" contactElement newsletterRules).listeners.length = 16 :=
  ⟨by decide, by decide, by decide, by decide⟩

/-- C15 (amended): `registerForm` makes no check for an earlier registration.  Whatever was
registered before, also under the same id, after the call the id of the form maps to a
fresh registration with the given kind and rules and `isSubmitting = false`; the entries of
other ids and the registration objects created earlier are left as they were; and one
`submit` listener plus, per field, a `blur` and an `input` listener (and a debounced
`input` listener for every e-mail field) are attached after the existing ones. -/
theorem registerForm_replaces (v : FormValidator) (type : String) (formElement : FormElement)
    (rules : Rules) :
    (registerForm v type formElement rules).get formElement.id =
      some { element := formElement, type := type, rules := rules, isSubmitting := false } ∧
    (∀ id, id ≠ formElement.id → (registerForm v type formElement rules).forms id = v.forms id) ∧
    (∀ i, i < v.records.length →
      (registerForm v type formElement rules).records.get? i = v.records.get? i) ∧
    (registerForm v type formElement rules).listeners =
      v.listeners ++
        [{ form := formElement, input := none, event := "submit",
           handler := Handler.handleFormSubmit, formData := v.records.length }] ++
        inputListeners formElement v.records.length 0 formElement.inputTypes ∧
    (registerForm v type formElement rules).listeners.length =
      v.listeners.length + 1 + 2 * formElement.inputTypes.length +
        formElement.inputTypes.count "email" := by
  refine ⟨?_, ?_, ?_, rfl, ?_⟩
  · simp [registerForm, bindFormEvents, FormValidator.get]
  · intro id hid
    simp [registerForm, bindFormEvents, hid]
  · intro i hi
    simp only [registerForm, bindFormEvents, List.get?_eq_getElem?]
    exact List.getElem?_append_left hi
  · simp only [registerForm, bindFormEvents, List.length_append, inputListeners_length,
      List.length_singleton]
    omega

theorem registerForm_replaces_witness :
    ((registerForm emptyValidator "contact" contactElement contactRules).get
      contactElement.id).isSome = true ∧
    (registerForm (registerForm emptyValidator "contact" contactElement contactRules)
      "newsletter" contactElement newsletterRules).get contactElement.id =
        some { element := contactElement, type := "newsletter", rules := newsletterRules,
               isSubmitting := false } ∧
    (0 < (registerForm emptyValidator "contact" contactElement contactRules).records.length ∧
      ((registerForm (registerForm emptyValidator "contact" contactElement contactRules)
        "newsletter" contactElement newsletterRules).records.get? 0).map (fun r => r.type) =
          some "contact") :=
  ⟨by decide,
   (registerForm_replaces (registerForm emptyValidator "contact" contactElement contactRules)
      "newsletter" contactElement newsletterRules).1,
   by decide,
   by
    rw [(registerForm_replaces
      (registerForm emptyValidator "contact" contactElement contactRules)
      "newsletter" contactElement newsletterRules).2.2.1 0 (by decide)]
    decide⟩

/-! ## C17 -/

theorem advance_nil {α : Type} (now : Nat) (d : Debounced α) (hp : d.pending = []) :
    advance now d = d := by
  unfold advance
  rw [hp]
  rfl

theorem advance_before_due {α : Type} (now : Nat) (d : Debounced α) (t : PendingTimer α)
    (hp : d.pending = [t]) (hlt : now < t.due) : advance now d = d := by
  unfold advance
  rw [hp]
  simp only [List.length_singleton, runTimers, hp]
  rw [if_neg (by omega)]

theorem advance_after_due {α : Type} (now : Nat) (d : Debounced α) (t : PendingTimer α)
    (hp : d.pending = [t]) (hge : t.due ≤ now) :
    advance now d = { d with pending := [], calls := d.calls ++ [(t.due, t.args)] } := by
  unfold advance
  rw [hp]
  simp only [List.length_singleton, runTimers, hp]
  rw [if_pos hge]
  rfl

theorem clearTimeout_self {α : Type} (t : PendingTimer α) :
    clearTimeout [t] (some t.handle) = [] := by
  simp [clearTimeout]

theorem burst_armed {α : Type} (rest : List (Nat × α)) (d : Debounced α) (t : Nat) (a : α)
    (h : Nat) (hp : d.pending = [{ handle := h, due := t + d.wait, args := a }])
    (ht : d.timeout = some h) (hc : d.calls = [])
    (hgaps : ∀ c ∈ rest, c.1 < d.wait) :
    (burst d t rest).1.wait = d.wait ∧ (burst d t rest).1.calls = [] ∧
    (burst d t rest).2 = t + (rest.map Prod.fst).sum ∧
    ∃ h1, (burst d t rest).1.pending =
        [{ handle := h1, due := (burst d t rest).2 + d.wait,
           args := (rest.map Prod.snd).getLastD a }] ∧
      (burst d t rest).1.timeout = some h1 := by
  induction rest generalizing d t a h with
  | nil => exact ⟨rfl, hc, by simp [burst], h, hp, ht⟩
  | cons c rest ih =>
    obtain ⟨gap, args⟩ := c
    have hgap : gap < d.wait := hgaps (gap, args) (List.mem_cons_self _ _)
    have hadv : advance (t + gap) d = d :=
      advance_before_due (t + gap) d _ hp (by show t + gap < t + d.wait; omega)
    have hpend : (executedFunction d (t + gap) args).pending =
        [{ handle := d.nextHandle, due := t + gap + d.wait, args := args }] := by
      unfold executedFunction
      simp only [hp, ht]
      rw [clearTimeout_self { handle := h, due := t + d.wait, args := a }]
      rfl
    have hrec := ih (executedFunction d (t + gap) args) (t + gap) args d.nextHandle hpend rfl hc
      (fun c hc => hgaps c (List.mem_cons_of_mem _ hc))
    simp only [burst, hadv]
    obtain ⟨h1, h2, h3, h4⟩ := hrec
    refine ⟨h1, h2, ?_, ?_⟩
    · rw [h3]
      simp only [List.map_cons, List.sum_cons]
      omega
    · have hlast : ((((gap, args) :: rest).map Prod.snd).getLastD a) =
          (rest.map Prod.snd).getLastD args := by
        cases rest <;> simp [List.getLastD]
      rw [hlast]
      exact h4

/-- C17: debounce.  Take a fresh debounced function with wait time `wait` and a burst of
calls: a first call `first` (time, arguments) followed by calls `rest`, each given by the
time elapsed since the previous call, which is less than `wait`.  During the burst the
wrapped function is not executed; after it exactly one timer is active, the one set by the
last call, every earlier one having been cancelled; before `wait` has elapsed since the
last call nothing is executed, and once it has, the wrapped function has been executed
exactly once, at that time and with the arguments of the last call. -/
theorem debounce_burst {α : Type} (wait : Nat) (first : Nat × α) (rest : List (Nat × α))
    (hgaps : ∀ c ∈ rest, c.1 < wait) :
    (burst (debounce wait) 0 (first :: rest)).1.calls = [] ∧
    (burst (debounce wait) 0 (first :: rest)).2 = first.1 + (rest.map Prod.fst).sum ∧
    (∃ h, (burst (debounce wait) 0 (first :: rest)).1.pending =
      [{ handle := h, due := (burst (debounce wait) 0 (first :: rest)).2 + wait,
         args := (rest.map Prod.snd).getLastD first.2 }]) ∧
    (∀ T, T < (burst (debounce wait) 0 (first :: rest)).2 + wait →
      (advance T (burst (debounce wait) 0 (first :: rest)).1).calls = []) ∧
    (∀ T, (burst (debounce wait) 0 (first :: rest)).2 + wait ≤ T →
      (advance T (burst (debounce wait) 0 (first :: rest)).1).calls =
        [((burst (debounce wait) 0 (first :: rest)).2 + wait,
          (rest.map Prod.snd).getLastD first.2)] ∧
      (advance T (burst (debounce wait) 0 (first :: rest)).1).pending = []) := by
  obtain ⟨t0, a0⟩ := first
  have hstep : burst (debounce wait) 0 ((t0, a0) :: rest) =
      burst (executedFunction (debounce wait) t0 a0) t0 rest := by
    simp only [burst, Nat.zero_add]
    rw [advance_nil _ _ rfl]
  have hmain := burst_armed rest (executedFunction (debounce wait) t0 a0) t0 a0 0
    rfl rfl rfl hgaps
  rw [hstep]
  obtain ⟨_, h2, h3, h4, h5, _⟩ := hmain
  have h5w : (burst (executedFunction (debounce wait) t0 a0) t0 rest).1.pending =
      [{ handle := h4, due := (burst (executedFunction (debounce wait) t0 a0) t0 rest).2 + wait,
         args := (rest.map Prod.snd).getLastD a0 }] := h5
  refine ⟨h2, h3, ⟨h4, h5w⟩, fun T hT => ?_, fun T hT => ?_⟩
  · rw [advance_before_due T _ _ h5w hT]
    exact h2
  · rw [advance_after_due T _ _ h5w hT]
    refine ⟨?_, rfl⟩
    show (burst (executedFunction (debounce wait) t0 a0) t0 rest).1.calls ++ _ = _
    rw [h2]
    rfl

theorem debounce_burst_witness :
    (∀ c ∈ [(120, "ke"), (499, "key")], c.1 < 500) ∧
    (advance 1118 (burst (debounce 500) 0 [(0, "k"), (120, "ke"), (499, "key")]).1).calls = [] ∧
    (advance 2000 (burst (debounce 500) 0 [(0, "k"), (120, "ke"), (499, "key")]).1).calls =
      [(1119, "key")] :=
  ⟨by decide,
   (debounce_burst 500 (0, "k") [(120, "ke"), (499, "key")] (by decide)).2.2.2.1 1118
     (by decide),
   ((debounce_burst 500 (0, "k") [(120, "ke"), (499, "key")] (by decide)).2.2.2.2 2000
     (by decide)).1⟩

/-! ## C21 -/

/-- C21: gallery index invariant.  With at least one image and the current index in
`[0, n)`, each of `nextImage`, `prevImage` and `goToImage i` (any integer `i`) leaves the
images as they are and the index in `[0, n)`; `nextImage` takes `n - 1` to `0`, `prevImage`
takes `0` to `n - 1`, `goToImage i` moves to `i` when `i` is in `[0, n)` and changes
nothing otherwise. -/
theorem gallery_index_invariant (g : ImageGallery) (h1 : 1 ≤ g.images.length)
    (h0 : 0 ≤ g.currentIndex) (hn : g.currentIndex < (g.images.length : Int)) :
    ((nextImage g).images = g.images ∧ 0 ≤ (nextImage g).currentIndex ∧
      (nextImage g).currentIndex < (g.images.length : Int)) ∧
    ((prevImage g).images = g.images ∧ 0 ≤ (prevImage g).currentIndex ∧
      (prevImage g).currentIndex < (g.images.length : Int)) ∧
    (∀ i : Int, (goToImage g i).images = g.images ∧ 0 ≤ (goToImage g i).currentIndex ∧
      (goToImage g i).currentIndex < (g.images.length : Int)) ∧
    (g.currentIndex = (g.images.length : Int) - 1 → (nextImage g).currentIndex = 0) ∧
    (g.currentIndex = 0 → (prevImage g).currentIndex = (g.images.length : Int) - 1) ∧
    (∀ i : Int, 0 ≤ i → i < (g.images.length : Int) → (goToImage g i).currentIndex = i) ∧
    (∀ i : Int, i < 0 ∨ (g.images.length : Int) ≤ i → goToImage g i = g) := by
  have hlen : ¬ g.images.length = 0 := by omega
  refine ⟨⟨?_, ?_, ?_⟩, ⟨?_, ?_, ?_⟩, fun i => ⟨?_, ?_, ?_⟩, fun h => ?_, fun h => ?_,
    fun i hi0 hin => ?_, fun i hi => ?_⟩
  · simp [nextImage, hlen]
  · simp only [nextImage, hlen, if_false]
    split <;> omega
  · simp only [nextImage, hlen, if_false]
    split <;> omega
  · simp [prevImage, hlen]
  · simp only [prevImage, hlen, if_false]
    split <;> omega
  · simp only [prevImage, hlen, if_false]
    split <;> omega
  · unfold goToImage
    split <;> rfl
  · unfold goToImage
    split
    · rename_i hi
      exact hi.1
    · exact h0
  · unfold goToImage
    split
    · rename_i hi
      exact hi.2
    · exact hn
  · simp only [nextImage, hlen, if_false]
    rw [if_neg (by omega)]
  · simp only [prevImage, hlen, if_false]
    rw [if_neg (by omega)]
  · unfold goToImage
    rw [if_pos ⟨hi0, hin⟩]
  · unfold goToImage
    rw [if_neg (by omega)]

theorem gallery_index_invariant_witness :
    1 ≤ threePictures.images.length ∧ threePictures.currentIndex = 2 ∧
    (nextImage threePictures).currentIndex = 0 ∧
    (prevImage (nextImage threePictures)).currentIndex = 2 ∧
    goToImage threePictures 3 = threePictures ∧
    goToImage threePictures (-1) = threePictures :=
  ⟨by decide, rfl,
   (gallery_index_invariant threePictures (by decide) (by decide) (by decide)).2.2.2.1 rfl,
   by decide,
   (gallery_index_invariant threePictures (by decide) (by decide) (by decide)).2.2.2.2.2.2 3
     (Or.inr (by decide)),
   (gallery_index_invariant threePictures (by decide) (by decide) (by decide)).2.2.2.2.2.2 (-1)
     (Or.inl (by decide))⟩

/-! ## C22 -/

theorem nextImage_of_lt (images : List ImageData) (i : Int)
    (h : i < (images.length : Int) - 1) (h0 : 0 ≤ i) :
    nextImage { images := images, currentIndex := i } =
      { images := images, currentIndex := i + 1 } := by
  have hlen : ¬ images.length = 0 := by omega
  simp only [nextImage, hlen, if_false]
  rw [if_pos h]

theorem nextImage_of_last (images : List ImageData) (i : Int)
    (h : i = (images.length : Int) - 1) (h0 : 0 ≤ i) :
    nextImage { images := images, currentIndex := i } =
      { images := images, currentIndex := 0 } := by
  have hlen : ¬ images.length = 0 := by omega
  simp only [nextImage, hlen, if_false]
  rw [if_neg (by omega)]

theorem nextImage_iterate_of_le (images : List ImageData) (k : Nat) (i : Int) (h0 : 0 ≤ i)
    (h : i + k ≤ (images.length : Int) - 1) :
    nextImage^[k] { images := images, currentIndex := i } =
      { images := images, currentIndex := i + k } := by
  induction k generalizing i with
  | zero => simp
  | succ k ih =>
    rw [Function.iterate_succ_apply, nextImage_of_lt images i (by push_cast at h; omega) h0,
      ih (i + 1) (by omega) (by push_cast at h ⊢; omega)]
    congr 1
    push_cast
    omega

/-- C22: with at least one image and the current index in `[0, n)`, `prevImage` after
`nextImage` and `nextImage` after `prevImage` both give the gallery back, and so do `n`
applications of `nextImage`. -/
theorem gallery_round_trip (g : ImageGallery) (h1 : 1 ≤ g.images.length)
    (h0 : 0 ≤ g.currentIndex) (hn : g.currentIndex < (g.images.length : Int)) :
    prevImage (nextImage g) = g ∧ nextImage (prevImage g) = g ∧
    nextImage^[g.images.length] g = g := by
  obtain ⟨images, i⟩ := g
  simp only at h1 h0 hn
  have hlen : ¬ images.length = 0 := by omega
  refine ⟨?_, ?_, ?_⟩
  · simp only [nextImage, prevImage, hlen, if_false]
    congr 1
    split_ifs <;> omega
  · simp only [nextImage, prevImage, hlen, if_false]
    congr 1
    split_ifs <;> omega
  · show nextImage^[images.length] { images := images, currentIndex := i } = _
    obtain ⟨a, ha⟩ : ∃ a : Nat, (a : Int) = i := ⟨i.toNat, Int.toNat_of_nonneg h0⟩
    have hsplit : images.length = a + (1 + (images.length - 1 - a)) := by omega
    rw [hsplit, Function.iterate_add_apply, Function.iterate_add_apply,
      nextImage_iterate_of_le images (images.length - 1 - a) i h0 (by omega),
      Function.iterate_one,
      nextImage_of_last images _ (by omega) (by omega),
      nextImage_iterate_of_le images a 0 (le_refl _) (by omega)]
    congr 1
    omega

theorem gallery_round_trip_witness :
    1 ≤ threePictures.images.length ∧
    prevImage (nextImage threePictures) = threePictures ∧
    nextImage (prevImage threePictures) = threePictures ∧
    nextImage (nextImage (nextImage threePictures)) = threePictures :=
  ⟨by decide,
   (gallery_round_trip threePictures (by decide) (by decide) (by decide)).1,
   (gallery_round_trip threePictures (by decide) (by decide) (by decide)).2.1,
   (gallery_round_trip threePictures (by decide) (by decide) (by decide)).2.2⟩

/-! ## C23 -/

theorem filter_spaceGroups (p : Char → Bool) (hp : p ' ' = false) (sizes : List Nat)
    (cs : List Char) : (spaceGroups sizes cs).filter p = cs.filter p := by
  induction sizes generalizing cs with
  | nil => rfl
  | cons k ks ih =>
    cases ks with
    | nil => rfl
    | cons k2 ks =>
      simp only [spaceGroups]
      rw [List.filter_append, List.filter_cons_of_neg (by simp [hp]), ih, ← List.filter_append,
        List.take_append_drop]

theorem filter_replaceFirst (p : Char → Bool) (hp : p ' ' = false)
    (classes : List (Char → Bool)) (sizes : List Nat) (cs : List Char) :
    (replaceFirst classes sizes cs).filter p = cs.filter p := by
  induction cs with
  | nil => rfl
  | cons c cs ih =>
    unfold replaceFirst
    split
    · exact filter_spaceGroups p hp sizes (c :: cs)
    · simp only [List.filter_cons, ih]

theorem forall_mem_spaceGroups (q : Char → Prop) (hq : q ' ') (sizes : List Nat)
    (cs : List Char) (h : ∀ c ∈ cs, q c) : ∀ c ∈ spaceGroups sizes cs, q c := by
  induction sizes generalizing cs with
  | nil => exact h
  | cons k ks ih =>
    cases ks with
    | nil => exact h
    | cons k2 ks =>
      intro c hc
      simp only [spaceGroups, List.mem_append, List.mem_cons] at hc
      rcases hc with hc | hc | hc
      · exact h c (List.mem_of_mem_take hc)
      · rw [hc]
        exact hq
      · exact ih (cs.drop k) (fun d hd => h d (List.mem_of_mem_drop hd)) c hc

theorem forall_mem_replaceFirst (q : Char → Prop) (hq : q ' ') (classes : List (Char → Bool))
    (sizes : List Nat) (cs : List Char) (h : ∀ c ∈ cs, q c) :
    ∀ c ∈ replaceFirst classes sizes cs, q c := by
  induction cs with
  | nil =>
    intro c hc
    simp [replaceFirst] at hc
  | cons a cs ih =>
    unfold replaceFirst
    split
    · exact forall_mem_spaceGroups q hq sizes (a :: cs) h
    · intro c hc
      rcases List.mem_cons.1 hc with hc | hc
      · rw [hc]
        exact h a (List.mem_cons_self _ _)
      · exact ih (fun d hd => h d (List.mem_cons_of_mem _ hd)) c hc

theorem formatPhoneChars_digits (input : List Char) :
    (formatPhoneChars input).filter isAsciiDigit = input.filter isAsciiDigit := by
  have hsp : isAsciiDigit ' ' = false := by decide
  have hff : (input.filter isAsciiDigit).filter isAsciiDigit = input.filter isAsciiDigit := by
    rw [List.filter_filter]
    simp
  unfold formatPhoneChars
  simp only []
  split
  · rename_i rest hval
    have hrest : rest.filter isAsciiDigit = rest := by
      rw [hval] at hff
      have h2 : isAsciiDigit '2' = true := by decide
      have h7 : isAsciiDigit '7' = true := by decide
      simpa [List.filter_cons, h2, h7] using hff
    have hv1 : ('+' :: '2' :: '7' :: ' ' :: rest).filter isAsciiDigit = '2' :: '7' :: rest := by
      have hplus : isAsciiDigit '+' = false := by decide
      have h2 : isAsciiDigit '2' = true := by decide
      have h7 : isAsciiDigit '7' = true := by decide
      simp [List.filter_cons, hplus, h2, h7, hsp, hrest]
    split
    · rw [filter_replaceFirst isAsciiDigit hsp, hv1, hval]
    · rw [hv1, hval]
  · split
    · rw [filter_replaceFirst isAsciiDigit hsp, hff]
    · exact hff

theorem formatPhoneChars_shape (input : List Char) :
    ∃ body, (formatPhoneChars input = body ∨ formatPhoneChars input = '+' :: body) ∧
      ∀ c ∈ body, isAsciiDigit c = true ∨ c = ' ' := by
  have hdig : ∀ c ∈ input.filter isAsciiDigit, isAsciiDigit c = true ∨ c = ' ' :=
    fun c hc => Or.inl (List.mem_filter.1 hc).2
  unfold formatPhoneChars
  simp only []
  split
  · rename_i rest hval
    have htail : ∀ c ∈ '2' :: '7' :: ' ' :: rest, isAsciiDigit c = true ∨ c = ' ' := by
      intro c hc
      rcases List.mem_cons.1 hc with hc | hc
      · rw [hc]
        exact Or.inl (by decide)
      · rcases List.mem_cons.1 hc with hc | hc
        · rw [hc]
          exact Or.inl (by decide)
        · rcases List.mem_cons.1 hc with hc | hc
          · exact Or.inr hc
          · exact hdig c (by rw [hval]; exact List.mem_cons_of_mem _ (List.mem_cons_of_mem _ hc))
    split
    · unfold replaceFirst
      split
      · refine ⟨spaceGroups [5, 3, 4] ('2' :: '7' :: ' ' :: rest), Or.inr ?_, ?_⟩
        · simp [spaceGroups]
        · exact forall_mem_spaceGroups _ (Or.inr rfl) _ _ htail
      · exact ⟨_, Or.inr rfl, forall_mem_replaceFirst _ (Or.inr rfl) _ _ _ htail⟩
    · exact ⟨_, Or.inr rfl, htail⟩
  · split
    · exact ⟨_, Or.inl rfl, forall_mem_replaceFirst _ (Or.inr rfl) _ _ _ hdig⟩
    · exact ⟨_, Or.inl rfl, hdig⟩

theorem formatPhoneChars_congr (a b : List Char)
    (h : a.filter isAsciiDigit = b.filter isAsciiDigit) :
    formatPhoneChars a = formatPhoneChars b := by
  unfold formatPhoneChars
  simp only []
  rw [h]

/-- C23: `formatPhoneNumber` keeps the digit sequence and is idempotent.  For every input
the ASCII digits of the formatted value are those of the input, in the same order; the
formatted value is made of digits and spaces, possibly after one leading `+`; and
formatting the formatted value again gives the same value. -/
theorem formatPhoneNumber_digits_idempotent (value : String) :
    (formatPhoneNumber value).data.filter isAsciiDigit = value.data.filter isAsciiDigit ∧
    (∃ body, ((formatPhoneNumber value).data = body ∨
        (formatPhoneNumber value).data = '+' :: body) ∧
      ∀ c ∈ body, isAsciiDigit c = true ∨ c = ' ') ∧
    formatPhoneNumber (formatPhoneNumber value) = formatPhoneNumber value := by
  refine ⟨formatPhoneChars_digits value.data, formatPhoneChars_shape value.data, ?_⟩
  unfold formatPhoneNumber
  congr 1
  exact formatPhoneChars_congr _ _ (formatPhoneChars_digits value.data)

theorem formatPhoneNumber_digits_idempotent_witness :
    formatPhoneNumber "27 (82) 123-4567" = "+27 82 123 4567" ∧
    (formatPhoneNumber "27 (82) 123-4567").data.filter isAsciiDigit =
      ['2', '7', '8', '2', '1', '2', '3', '4', '5', '6', '7'] ∧
    formatPhoneNumber "+27 82 123 4567" = "+27 82 123 4567" ∧
    formatPhoneNumber "0821234567" = "082 123 4567" :=
  ⟨by decide,
   (formatPhoneNumber_digits_idempotent "27 (82) 123-4567").1.trans (by decide),
   (congrArg formatPhoneNumber (by decide : "+27 82 123 4567" =
      formatPhoneNumber "27 (82) 123-4567")).trans
     ((formatPhoneNumber_digits_idempotent "27 (82) 123-4567").2.2.trans (by decide)),
   by decide⟩

/-! ## C24 -/

theorem roundHalfEven_ge (m : ℚ) : m - 1 / 2 ≤ (roundHalfEven m : ℚ) := by
  have h1 := Int.floor_le m
  have h2 := Int.lt_floor_add_one m
  unfold roundHalfEven
  simp only []
  split_ifs <;> push_cast <;> linarith

theorem roundHalfEven_le (m : ℚ) : (roundHalfEven m : ℚ) ≤ m + 1 / 2 := by
  have h1 := Int.floor_le m
  have h2 := Int.lt_floor_add_one m
  unfold roundHalfEven
  simp only []
  split_ifs <;> push_cast <;> linarith

theorem roundHalfEven_nonneg (m : ℚ) (hm : 0 ≤ m) : 0 ≤ roundHalfEven m := by
  have h1 : 0 ≤ ⌊m⌋ := Int.floor_nonneg.2 hm
  unfold roundHalfEven
  simp only []
  split_ifs <;> omega

theorem roundPositive_nonneg (q : ℚ) (hq : 0 ≤ q) : 0 ≤ roundPositive q := by
  unfold roundPositive
  simp only []
  have hulp : (0 : ℚ) < 2 ^ (max (Int.log 2 q) (-1022) - 52) := zpow_pos (by norm_num) _
  have hn := roundHalfEven_nonneg (q / 2 ^ (max (Int.log 2 q) (-1022) - 52))
    (div_nonneg hq (le_of_lt hulp))
  have hc : (0 : ℚ) ≤ (roundHalfEven (q / 2 ^ (max (Int.log 2 q) (-1022) - 52)) : ℚ) := by
    exact_mod_cast hn
  exact mul_nonneg hc (le_of_lt hulp)

theorem roundPositive_near (q : ℚ) (hq : 1 / 1024 ≤ q) :
    q * (1 - 1 / 2 ^ 53) ≤ roundPositive q ∧ roundPositive q ≤ q * (1 + 1 / 2 ^ 53) := by
  have hq0 : 0 < q := lt_of_lt_of_le (by norm_num) hq
  have hlog : (-10 : ℤ) ≤ Int.log 2 q := by
    rw [← Int.zpow_le_iff_le_log (by norm_num) hq0]
    norm_num
    linarith
  have he : max (Int.log 2 q) (-1022) = Int.log 2 q := max_eq_left (by omega)
  unfold roundPositive
  simp only [he]
  have hpow : ((2 : ℕ) : ℚ) ^ Int.log 2 q ≤ q := Int.zpow_log_le_self (by norm_num) hq0
  have hulp0 : (0 : ℚ) < 2 ^ (Int.log 2 q - 52) := zpow_pos (by norm_num) _
  have hulp : (2 : ℚ) ^ (Int.log 2 q - 52) * 2 ^ 53 ≤ 2 * q := by
    have hmul : (2 : ℚ) ^ (Int.log 2 q - 52) * 2 ^ 53 = 2 * 2 ^ Int.log 2 q := by
      rw [zpow_sub₀ (by norm_num : (2 : ℚ) ≠ 0)]
      norm_num
      ring
    rw [hmul]
    push_cast at hpow
    linarith
  have h1 := roundHalfEven_ge (q / 2 ^ (Int.log 2 q - 52))
  have h2 := roundHalfEven_le (q / 2 ^ (Int.log 2 q - 52))
  have h3 : q / 2 ^ (Int.log 2 q - 52) * 2 ^ (Int.log 2 q - 52) = q :=
    div_mul_cancel₀ q (ne_of_gt hulp0)
  have h4 := mul_le_mul_of_nonneg_right h1 (le_of_lt hulp0)
  have h5 := mul_le_mul_of_nonneg_right h2 (le_of_lt hulp0)
  rw [sub_mul, h3] at h4
  rw [add_mul, h3] at h5
  norm_num at hulp ⊢
  constructor <;> linarith

theorem infinity_pos : 0 < infinity := by
  unfold infinity
  positivity

theorem roundDouble_zero : roundDouble 0 = 0 := by
  unfold roundDouble
  rw [if_pos rfl]

theorem roundDouble_nonneg (q : ℚ) (hq : 0 ≤ q) : 0 ≤ roundDouble q := by
  unfold roundDouble
  split
  · exact le_refl _
  · rename_i h0
    have hpos : 0 < q := lt_of_le_of_ne hq (Ne.symm h0)
    rw [if_pos hpos]
    exact le_min (roundPositive_nonneg q hq) (le_of_lt infinity_pos)

theorem roundDouble_le (q : ℚ) (hq : 1 / 1024 ≤ q) : roundDouble q ≤ q * (1 + 1 / 2 ^ 53) := by
  have hq0 : 0 < q := lt_of_lt_of_le (by norm_num) hq
  unfold roundDouble
  rw [if_neg (ne_of_gt hq0), if_pos hq0]
  exact le_trans (min_le_left _ _) (roundPositive_near q hq).2

theorem roundDouble_ge (q : ℚ) (hq : 1 / 1024 ≤ q) (L : ℚ) (h1 : L ≤ q * (1 - 1 / 2 ^ 53))
    (h2 : L ≤ infinity) : L ≤ roundDouble q := by
  have hq0 : 0 < q := lt_of_lt_of_le (by norm_num) hq
  unfold roundDouble
  rw [if_neg (ne_of_gt hq0), if_pos hq0]
  exact le_min (le_trans h1 (roundPositive_near q hq).1) h2

theorem roundDouble_ge_of_lt (q : ℚ) (hq : 1 / 1024 ≤ q) (hfin : roundDouble q < infinity) :
    q * (1 - 1 / 2 ^ 53) ≤ roundDouble q := by
  have hq0 : 0 < q := lt_of_lt_of_le (by norm_num) hq
  unfold roundDouble at hfin ⊢
  rw [if_neg (ne_of_gt hq0), if_pos hq0] at hfin ⊢
  rcases min_choice (roundPositive q) infinity with hm | hm
  · rw [hm]
    exact (roundPositive_near q hq).1
  · rw [hm] at hfin
    exact absurd hfin (lt_irrefl _)

theorem runInterval_of_cleared (callback : CounterState → CounterState) (n : Nat)
    (c : CounterState) (h : c.cleared = true) : runInterval callback n c = c := by
  cases n with
  | zero => rfl
  | succ n => simp [runInterval, h]

theorem runInterval_add (callback : CounterState → CounterState) (n k : Nat)
    (c : CounterState) :
    runInterval callback (n + k) c = runInterval callback k (runInterval callback n c) := by
  induction n generalizing c with
  | zero => simp [runInterval]
  | succ n ih =>
    rw [Nat.add_right_comm]
    simp only [runInterval]
    split
    · rename_i hc
      rw [runInterval_of_cleared callback k c hc]
    · exact ih (callback c)

theorem counterTick_reached (toLocaleString : Int → String)
    (endValue increment : ℚ) (suffix : String) (c : CounterState)
    (h : endValue ≤ doubleAdd c.current increment) :
    counterTick toLocaleString endValue increment suffix c =
      { current := endValue, cleared := true,
        textContent := toLocaleString ⌊endValue⌋ ++ suffix,
        written := c.written ++ [⌊endValue⌋] } := by
  unfold counterTick
  simp [h]

theorem counterTick_not_reached (toLocaleString : Int → String)
    (endValue increment : ℚ) (suffix : String) (c : CounterState)
    (h : doubleAdd c.current increment < endValue) :
    counterTick toLocaleString endValue increment suffix c =
      { current := doubleAdd c.current increment, cleared := c.cleared,
        textContent := toLocaleString ⌊doubleAdd c.current increment⌋ ++ suffix,
        written := c.written ++ [⌊doubleAdd c.current increment⌋] } := by
  unfold counterTick
  simp [not_le.2 h]

theorem runInterval_finishes (toLocaleString : Int → String)
    (endValue increment start δ : ℚ) (suffix : String)
    (hprog : ∀ x, start ≤ x → doubleAdd x increment < endValue →
      x + δ ≤ doubleAdd x increment)
    (N : Nat) (c : CounterState) (hc : c.cleared = false) (hs : start ≤ c.current)
    (hN : endValue - c.current ≤ (N + 1 : Nat) * δ) :
    ∃ n ws, 0 < n ∧ n ≤ N + 1 ∧ ws.length = n ∧
      (runInterval (counterTick toLocaleString endValue increment suffix) n c).cleared
        = true ∧
      (runInterval (counterTick toLocaleString endValue increment suffix) n c).current
        = endValue ∧
      (runInterval (counterTick toLocaleString endValue increment suffix) n c).written
        = c.written ++ ws ∧
      (∀ v ∈ ws, v ≤ ⌊endValue⌋) ∧ ws.getLast? = some ⌊endValue⌋ ∧
      (runInterval (counterTick toLocaleString endValue increment suffix) n c).textContent
        = toLocaleString ⌊endValue⌋ ++ suffix := by
  induction N generalizing c with
  | zero =>
    have hx : endValue ≤ doubleAdd c.current increment := by
      by_contra hlt
      have h1 := hprog c.current hs (not_le.1 hlt)
      simp only [Nat.zero_add, Nat.cast_one, one_mul] at hN
      linarith [not_le.1 hlt]
    refine ⟨1, [⌊endValue⌋], Nat.one_pos, le_refl _, rfl, ?_⟩
    simp only [runInterval, hc, Bool.false_eq_true, if_false,
      counterTick_reached toLocaleString endValue increment suffix c hx]
    simp
  | succ M ih =>
    by_cases hx : endValue ≤ doubleAdd c.current increment
    · refine ⟨1, [⌊endValue⌋], Nat.one_pos, by omega, rfl, ?_⟩
      simp only [runInterval, hc, Bool.false_eq_true, if_false,
        counterTick_reached toLocaleString endValue increment suffix c hx]
      simp
    · have hlt := not_le.1 hx
      have h1 := hprog c.current hs hlt
      have htick := counterTick_not_reached toLocaleString endValue increment suffix c hlt
      have hN2 : endValue - doubleAdd c.current increment ≤ (M + 1 : Nat) * δ := by
        push_cast at hN ⊢
        linarith
      obtain ⟨n, ws, hn, hle, hlen, h2, h3, h4, h5, h6, h7⟩ :=
        ih (counterTick toLocaleString endValue increment suffix c)
          (by rw [htick]; exact hc)
          (by
            rw [htick]
            show start ≤ doubleAdd c.current increment
            have hδ : 0 ≤ δ := by
              by_contra hneg
              push_cast at hN
              nlinarith [not_le.1 hneg]
            linarith)
          (by rw [htick]; exact hN2)
      refine ⟨n + 1, ⌊doubleAdd c.current increment⌋ :: ws, Nat.succ_pos _, by omega,
        by simp [hlen], ?_⟩
      simp only [runInterval, hc, Bool.false_eq_true, if_false]
      refine ⟨h2, h3, ?_, ?_, ?_, h7⟩
      · rw [h4, htick]
        simp
      · intro v hv
        rcases List.mem_cons.1 hv with hv | hv
        · rw [hv]
          exact Int.floor_mono (le_of_lt hlt)
        · exact h5 v hv
      · cases ws with
        | nil => simp at hlen; omega
        | cons w ws => simpa [List.getLast?_cons_cons] using h6

theorem doubleDiv_duration : 124 ≤ doubleDiv 2000 16 ∧ doubleDiv 2000 16 ≤ 125 + 125 / 2 ^ 53 := by
  have h125 : (2000 : ℚ) / 16 = 125 := by norm_num
  unfold doubleDiv
  rw [h125]
  constructor
  · apply roundDouble_ge 125 (by norm_num) 124 (by norm_num)
    unfold infinity
    calc (124 : ℚ) ≤ 2 ^ 7 := by norm_num
      _ ≤ 2 ^ 1024 := pow_le_pow_right₀ (by norm_num) (by norm_num)
  · have h := roundDouble_le 125 (by norm_num)
    linarith

theorem animateCounter_increment (endN : Nat) (h1 : 1 ≤ endN)
    (hfinite : (endN : ℚ) < infinity) :
    (endN : ℚ) * (1 / 1252 * 10) ≤
      doubleDiv (doubleSub (endN : ℚ) 0) (doubleDiv 2000 16) := by
  have hq1 : (1 : ℚ) ≤ endN := by exact_mod_cast h1
  have hfin : (endN : ℚ) ≤ infinity := le_of_lt hfinite
  obtain ⟨hd1, hd2⟩ := doubleDiv_duration
  have hd0 : 0 < doubleDiv 2000 16 := by linarith
  have hrange : (endN : ℚ) * (9999 / 10000) ≤ doubleSub (endN : ℚ) 0 := by
    unfold doubleSub
    rw [sub_zero]
    apply roundDouble_ge (endN : ℚ) (by linarith) _ _ (by linarith)
    have hnum : (9999 : ℚ) / 10000 ≤ 1 - 1 / 2 ^ 53 := by norm_num
    exact mul_le_mul_of_nonneg_left hnum (by linarith)
  have hquot : (endN : ℚ) * (10 / 1251) ≤
      doubleSub (endN : ℚ) 0 / doubleDiv 2000 16 := by
    rw [le_div_iff₀ hd0]
    have hdle : doubleDiv 2000 16 ≤ 125 + 1 / 80 := by
      have hnum : (125 : ℚ) / 2 ^ 53 ≤ 1 / 80 := by norm_num
      linarith
    have hmul := mul_le_mul_of_nonneg_left hdle
      (show (0 : ℚ) ≤ (endN : ℚ) * (10 / 1251) by positivity)
    have hnum2 : (endN : ℚ) * (10 / 1251) * (125 + 1 / 80) ≤ (endN : ℚ) * (9999 / 10000) := by
      have hnn : (0 : ℚ) ≤ endN := by linarith
      nlinarith
    linarith
  unfold doubleDiv at hquot ⊢
  have hq : (1 : ℚ) / 1024 ≤ doubleSub (endN : ℚ) 0 / roundDouble (2000 / 16) := by
    have hnum : (1 : ℚ) / 1024 ≤ (endN : ℚ) * (10 / 1251) := by nlinarith
    linarith
  apply roundDouble_ge _ hq
  · have hnum : (9999 : ℚ) / 10000 ≤ 1 - 1 / 2 ^ 53 := by norm_num
    have hpos : (0 : ℚ) ≤ doubleSub (endN : ℚ) 0 / roundDouble (2000 / 16) := by linarith
    have hmul := mul_le_mul_of_nonneg_left hnum hpos
    have hnum2 : (endN : ℚ) * (1 / 1252 * 10) ≤ (endN : ℚ) * (10 / 1251) * (9999 / 10000) := by
      have hnn : (0 : ℚ) ≤ endN := by linarith
      nlinarith
    nlinarith
  · have hnn : (0 : ℚ) ≤ endN := by linarith
    nlinarith

theorem animateCounter_progress (endN : Nat) (h1 : 1 ≤ endN)
    (hfin : (endN : ℚ) < infinity) (increment : ℚ) (hinc : (endN : ℚ) * (1 / 1252 * 10) ≤ increment) (x : ℚ) (hx : 0 ≤ x)
    (hlt : doubleAdd x increment < (endN : ℚ)) :
    x + (endN : ℚ) / 126 ≤ doubleAdd x increment := by
  have hq1 : (1 : ℚ) ≤ endN := by exact_mod_cast h1
  unfold doubleAdd at hlt ⊢
  have hy : (1 : ℚ) / 1024 ≤ x + increment := by nlinarith
  have hge := roundDouble_ge_of_lt (x + increment) hy (lt_trans hlt hfin)
  have hu : (1 : ℚ) / 2 ^ 53 ≤ 1 / 10 ^ 15 := by norm_num
  have hu0 : (0 : ℚ) ≤ 1 / 2 ^ 53 := by positivity
  have hypos : (0 : ℚ) ≤ x + increment := by linarith
  have hyu : (x + increment) * (1 / 2 ^ 53) ≤ (x + increment) * (1 / 10 ^ 15) :=
    mul_le_mul_of_nonneg_left hu hypos
  have hybound : x + increment ≤ 2 * (endN : ℚ) := by nlinarith
  nlinarith

theorem animateCounter_loop (toLocaleString : Int → String) (text0 suffix : String)
    (endN : Nat) (hfin : (endN : ℚ) < infinity) :
    ∃ n ws, 0 < n ∧ n ≤ 126 ∧ ws.length = n ∧
      (animateCounter toLocaleString text0 0 endN suffix 2000 n).cleared = true ∧
      (animateCounter toLocaleString text0 0 endN suffix 2000 n).written = ws ∧
      (∀ v ∈ ws, v ≤ (endN : Int)) ∧ ws.getLast? = some (endN : Int) ∧
      (animateCounter toLocaleString text0 0 endN suffix 2000 n).textContent =
        toLocaleString endN ++ suffix := by
  rcases Nat.eq_zero_or_pos endN with h0 | hpos
  · have hinc : doubleDiv (doubleSub ((endN : Nat) : ℚ) 0) (doubleDiv 2000 16) = 0 := by
      rw [h0]
      simp [doubleSub, doubleDiv, roundDouble_zero]
    have hprog : ∀ x : ℚ, 0 ≤ x →
        doubleAdd x (doubleDiv (doubleSub ((endN : Nat) : ℚ) 0) (doubleDiv 2000 16))
          < ((endN : Nat) : ℚ) →
        x + 1 ≤ doubleAdd x (doubleDiv (doubleSub ((endN : Nat) : ℚ) 0) (doubleDiv 2000 16)) := by
      intro x hx hlt
      rw [hinc] at hlt
      have hnn := roundDouble_nonneg (x + 0) (by linarith)
      rw [h0] at hlt
      unfold doubleAdd at hlt
      norm_num at hlt hnn
      linarith
    obtain ⟨n, ws, hn, hle, hlen, h2, _, h4, h5, h6, h7⟩ :=
      runInterval_finishes toLocaleString (endN : ℚ)
        (doubleDiv (doubleSub ((endN : Nat) : ℚ) 0) (doubleDiv 2000 16)) 0 1 suffix hprog 0
        { current := 0, cleared := false, textContent := text0, written := [] } rfl
        (le_refl _) (by rw [h0]; norm_num)
    rw [Int.floor_natCast] at h5 h6 h7
    exact ⟨n, ws, hn, by omega, hlen, h2, by simpa using h4, h5, h6, h7⟩
  · have hinc := animateCounter_increment endN hpos hfin
    have hprog := animateCounter_progress endN hpos hfin _ hinc
    obtain ⟨n, ws, hn, hle, hlen, h2, _, h4, h5, h6, h7⟩ :=
      runInterval_finishes toLocaleString (endN : ℚ)
        (doubleDiv (doubleSub ((endN : Nat) : ℚ) 0) (doubleDiv 2000 16)) 0
        ((endN : ℚ) / 126) suffix hprog 125
        { current := 0, cleared := false, textContent := text0, written := [] } rfl
        (le_refl _) (by push_cast; linarith)
    rw [Int.floor_natCast] at h5 h6 h7
    exact ⟨n, ws, hn, hle, hlen, h2, by simpa using h4, h5, h6, h7⟩

/-- C24: `animateCounter` terminates with the target value.  For `start = 0`,
`duration = 2000` and every natural number `end` that is a finite JavaScript number
(below `2 ^ 1024`), with all arithmetic rounded as IEEE doubles, there is a number `n` of
16 ms ticks, at least 1 and at most 126, after which the interval timer has been cleared:
exactly `n` values were written, each at most `end`, the last one being `end`, the element
shows `end` (as `toLocaleString` prints it) followed by the suffix, and further ticks
change nothing. -/
theorem animateCounter_terminates (toLocaleString : Int → String) (text0 suffix : String)
    (endN : Nat) (hfinite : endN < 2 ^ 1024) :
    ∃ n, 0 < n ∧ n ≤ 126 ∧
      (animateCounter toLocaleString text0 0 endN suffix 2000 n).cleared = true ∧
      (animateCounter toLocaleString text0 0 endN suffix 2000 n).written.length = n ∧
      (∀ v ∈ (animateCounter toLocaleString text0 0 endN suffix 2000 n).written,
        v ≤ (endN : Int)) ∧
      (animateCounter toLocaleString text0 0 endN suffix 2000 n).written.getLast? =
        some (endN : Int) ∧
      (animateCounter toLocaleString text0 0 endN suffix 2000 n).textContent =
        toLocaleString endN ++ suffix ∧
      ∀ m, n ≤ m →
        animateCounter toLocaleString text0 0 endN suffix 2000 m =
          animateCounter toLocaleString text0 0 endN suffix 2000 n := by
  have hfin : (endN : ℚ) < infinity := by
    have hcast : ((endN : Nat) : ℚ) < ((2 ^ 1024 : Nat) : ℚ) := Nat.cast_lt.2 hfinite
    rw [Nat.cast_pow, Nat.cast_ofNat] at hcast
    exact hcast
  obtain ⟨n, ws, hn, hle, hlen, h2, h4, h5, h6, h7⟩ :=
    animateCounter_loop toLocaleString text0 suffix endN hfin
  refine ⟨n, hn, hle, h2, by rw [h4, hlen], by rw [h4]; exact h5, by rw [h4]; exact h6, h7,
    fun m hm => ?_⟩
  obtain ⟨k, rfl⟩ : ∃ k, m = n + k := ⟨m - n, by omega⟩
  show runInterval _ (n + k) _ = runInterval _ n _
  rw [runInterval_add]
  exact runInterval_of_cleared _ k _ h2

theorem animateCounter_terminates_witness :
    9 < 2 ^ 1024 ∧
    ∃ n, 0 < n ∧ n ≤ 126 ∧
      (animateCounter (fun v => toString v) "9+" 0 (9 : Nat) "+" 2000 n).cleared = true ∧
      (∀ v ∈ (animateCounter (fun v => toString v) "9+" 0 (9 : Nat) "+" 2000 n).written,
        v ≤ 9) ∧
      (animateCounter (fun v => toString v) "9+" 0 (9 : Nat) "+" 2000 n).textContent =
        "9+" :=
  ⟨by norm_num,
   (animateCounter_terminates (fun v => toString v) "9+" "+" 9 (by norm_num)).imp
    (fun _ h => ⟨h.1, h.2.1, h.2.2.1, h.2.2.2.2.1, h.2.2.2.2.2.2.1⟩)⟩
